import Mathlib

/-!
# tikpi: header codecs and the server-side handshake

A shallow embedding of the Go packages `ethernet`, `ip`, `tcp` and of the
functions `handlePacket` and `sendPacket` in `main.go`. The checksum engine
`utils.ChecksumData` has no source file here and is modelled from the
specification.

Conventions of the embedding:

* a Go `[]byte` is a `List Nat` whose elements are below 256 (`Bytes`);
* `uint8`, `uint16` and `uint32` values are `Nat`s; every Go operation that can
  leave the range of its type is followed by the reduction the machine
  performs (`u8`, `u16`, `u32`);
* a Go function returning `(T, error)` returns `Except String T`;
* a Go panic is a `Fault`.
-/

namespace Tikpi

/-! ## Machine integers -/

/-- Conversion to `byte` / `uint8`: keeps the low 8 bits. -/
def u8 (x : Nat) : Nat := x % 256

/-- Conversion to `uint16`: keeps the low 16 bits. -/
def u16 (x : Nat) : Nat := x % 65536

/-- Conversion to `uint32`: keeps the low 32 bits. -/
def u32 (x : Nat) : Nat := x % 4294967296

deriving instance DecidableEq for Except

/-- A byte slice is well formed when each element is a byte. -/
def Bytes (data : List Nat) : Prop := ∀ b ∈ data, b < 256

instance (data : List Nat) : Decidable (Bytes data) := by
  unfold Bytes; infer_instance

/-- The Go array type `[4]byte`. -/
structure Addr4 where
  b0 : Nat
  b1 : Nat
  b2 : Nat
  b3 : Nat
  deriving DecidableEq, Repr

/-- The slice `a[:]` of a `[4]byte`. -/
def Addr4.toList (a : Addr4) : List Nat := [a.b0, a.b1, a.b2, a.b3]

/-- The Go array type `[6]byte`. -/
structure Addr6 where
  b0 : Nat
  b1 : Nat
  b2 : Nat
  b3 : Nat
  b4 : Nat
  b5 : Nat
  deriving DecidableEq, Repr

/-- The slice `a[:]` of a `[6]byte`. -/
def Addr6.toList (a : Addr6) : List Nat := [a.b0, a.b1, a.b2, a.b3, a.b4, a.b5]

/-- The standard library function `binary.BigEndian.Uint16`, applied to the two bytes of its
argument: `uint16(b[1]) | uint16(b[0])<<8`. -/
def bigEndianUint16 (b0 b1 : Nat) : Nat := b1 ||| u16 (b0 <<< 8)

/-- The standard library function `binary.BigEndian.Uint32`, applied to the four bytes of its
argument: `uint32(b[3]) | uint32(b[2])<<8 | uint32(b[1])<<16 | uint32(b[0])<<24`. -/
def bigEndianUint32 (b0 b1 b2 b3 : Nat) : Nat :=
  b3 ||| u32 (b2 <<< 8) ||| u32 (b1 <<< 16) ||| u32 (b0 <<< 24)

/-! ## Package `ethernet` (`ethernet/frame.go`) -/

namespace ethernet

/-- The struct `ethernet.Frame`. -/
structure Frame where
  DestMac : Addr6
  SrcMac : Addr6
  EtherType : Nat
  deriving DecidableEq, Repr

/-- The function `ethernet.Parse`. -/
def Parse (data : List Nat) : Except String Frame :=
  if h : data.length < 14 then
    .error "data too short to be an Ethernet frame"
  else
    .ok {
      DestMac := ⟨data[0], data[1], data[2], data[3], data[4], data[5]⟩
      SrcMac := ⟨data[6], data[7], data[8], data[9], data[10], data[11]⟩
      EtherType := bigEndianUint16 data[12] data[13] }

/-- The method `(*Frame).Build`: `copy` of the two addresses, then
`binary.BigEndian.PutUint16(data[12:14], f.EtherType)`, which stores `byte(v >> 8)` and
`byte(v)`. -/
def Frame.Build (f : Frame) : Except String (List Nat) :=
  .ok (f.DestMac.toList ++ f.SrcMac.toList ++ [u8 (f.EtherType >>> 8), u8 f.EtherType])

end ethernet

/-! ## Package `ip` (`ip/packet.go`) -/

namespace ip

/-- The function `parseIPProtocol`: the conversion `IPProtocol(proto)`. -/
def parseIPProtocol (proto : Nat) : Nat := proto

/-- The constant `IPProtocolTCP`. -/
def IPProtocolTCP : Nat := 6

/-- The struct `ip.IPPacket`. -/
structure IPPacket where
  Version : Nat
  IHL : Nat
  TOS : Nat
  TotalLen : Nat
  Identification : Nat
  Flags : Nat
  FragmentOffset : Nat
  TTL : Nat
  Protocol : Nat
  HeaderChecksum : Nat
  SrcIP : Addr4
  DestIP : Addr4
  deriving DecidableEq, Repr

/-- The function `ip.Parse`. -/
def Parse (data : List Nat) : Except String IPPacket :=
  if h : data.length < 20 then
    .error "data too short to be an IP packet"
  else
    .ok {
      Version := data[0] >>> 4
      IHL := data[0] &&& 0x0F
      TOS := data[1]
      TotalLen := u16 (data[2] <<< 8) ||| data[3]
      Identification := u16 (data[4] <<< 8) ||| data[5]
      Flags := data[6] >>> 5
      FragmentOffset := u16 ((data[6] &&& 0x1F) <<< 8) ||| data[7]
      TTL := data[8]
      Protocol := parseIPProtocol data[9]
      HeaderChecksum := u16 (data[10] <<< 8) ||| data[11]
      SrcIP := ⟨data[12], data[13], data[14], data[15]⟩
      DestIP := ⟨data[16], data[17], data[18], data[19]⟩ }

/-- The function `ip.Build`: a fresh 20-byte buffer, each index assigned once. -/
def Build (packet : IPPacket) : Except String (List Nat) :=
  .ok ([ u8 (packet.Version <<< 4) ||| (packet.IHL &&& 0x0F),
         packet.TOS,
         u8 (packet.TotalLen >>> 8),
         u8 (packet.TotalLen &&& 0xFF),
         u8 (packet.Identification >>> 8),
         u8 (packet.Identification &&& 0xFF),
         u8 (packet.Flags <<< 5) ||| u8 ((packet.FragmentOffset >>> 8) &&& 0x1F),
         u8 (packet.FragmentOffset &&& 0xFF),
         packet.TTL,
         u8 packet.Protocol,
         u8 (packet.HeaderChecksum >>> 8),
         u8 (packet.HeaderChecksum &&& 0xFF) ]
        ++ packet.SrcIP.toList ++ packet.DestIP.toList)

end ip

/-! ## Package `tcp`: the segment codec (`tcp/segment.go`) -/

namespace tcp

/-- The struct `tcp.TCPSegment`. -/
structure TCPSegment where
  SrcPort : Nat
  DestPort : Nat
  SeqNum : Nat
  AckNum : Nat
  DataOffset : Nat
  Flags : Nat
  WindowSize : Nat
  deriving DecidableEq, Repr

/-- The function `tcp.Parse`. -/
def Parse (data : List Nat) : Except String TCPSegment :=
  if h : data.length < 20 then
    .error "data too short to be a TCP segment"
  else
    .ok {
      SrcPort := u16 (data[0] <<< 8) ||| data[1]
      DestPort := u16 (data[2] <<< 8) ||| data[3]
      SeqNum := u32 (data[4] <<< 24) ||| u32 (data[5] <<< 16) ||| u32 (data[6] <<< 8) ||| data[7]
      AckNum := u32 (data[8] <<< 24) ||| u32 (data[9] <<< 16) ||| u32 (data[10] <<< 8) ||| data[11]
      DataOffset := data[12] >>> 4
      Flags := u16 ((data[12] &&& 0x01) <<< 8) ||| data[13]
      WindowSize := u16 (data[14] <<< 8) ||| data[15] }

/-- The function `tcp.Build`: `make([]byte, 20)` followed by one assignment to each of the
indices 0 to 15; indices 16 to 19 keep the zero of `make`. -/
def Build (segment : TCPSegment) : List Nat :=
  [ u8 (segment.SrcPort >>> 8),
    u8 (segment.SrcPort &&& 0xFF),
    u8 (segment.DestPort >>> 8),
    u8 (segment.DestPort &&& 0xFF),
    u8 (segment.SeqNum >>> 24),
    u8 ((segment.SeqNum >>> 16) &&& 0xFF),
    u8 ((segment.SeqNum >>> 8) &&& 0xFF),
    u8 (segment.SeqNum &&& 0xFF),
    u8 (segment.AckNum >>> 24),
    u8 ((segment.AckNum >>> 16) &&& 0xFF),
    u8 ((segment.AckNum >>> 8) &&& 0xFF),
    u8 (segment.AckNum &&& 0xFF),
    u8 ((segment.DataOffset &&& 0x0F) <<< 4) ||| u8 ((segment.Flags >>> 8) &&& 0x01),
    u8 (segment.Flags &&& 0xFF),
    u8 (segment.WindowSize >>> 8),
    u8 (segment.WindowSize &&& 0xFF),
    0, 0, 0, 0 ]

end tcp

/-! ## Faults and the randomness source -/

/-- A Go run-time panic. -/
inductive Fault where
  /-- The call `panic(err)` of `HandleSyn`, with the error of the randomness source. -/
  | entropy (err : String)
  /-- A slice expression `data[low:]` with `low > len(data)`. -/
  | sliceBounds (low len : Nat)
  deriving DecidableEq, Repr

/-- The slice expression `data[low:]`, which panics when `low` exceeds `len(data)`. -/
def sliceFrom (data : List Nat) (low : Nat) : Except Fault (List Nat) :=
  if low > data.length then .error (.sliceBounds low data.length) else .ok (data.drop low)

/-- The external randomness source `crypto/rand`, as seen by this program: the outcomes of the
coming calls `rand.Read(b[:])` on a 4-byte buffer (`none` is a call that returns an error; a
source with no outcome left has become unavailable), and the number of calls made so far. -/
structure RandSource where
  pending : List (Option Addr4)
  reads : Nat
  deriving DecidableEq, Repr

namespace tcp

/-- The function `randomInitialSeqNum`: one `rand.Read` on a 4-byte buffer, then
`binary.BigEndian.Uint32`. -/
def randomInitialSeqNum (rs : RandSource) : Except String Nat × RandSource :=
  match rs.pending with
  | [] => (.error "entropy source unavailable", { rs with reads := rs.reads + 1 })
  | none :: rest => (.error "entropy read failed", { pending := rest, reads := rs.reads + 1 })
  | some b :: rest =>
    (.ok (bigEndianUint32 b.b0 b.b1 b.b2 b.b3), { pending := rest, reads := rs.reads + 1 })

/-! ## Package `tcp`: the connection state machine (`tcp/state.go`) -/

/-- The type `tcp.State` with its eleven constants. -/
inductive State where
  | STATE_LISTEN
  | STATE_SYN_RECEIVED
  | STATE_ESTABLISHED
  | STATE_FIN_WAIT_1
  | STATE_FIN_WAIT_2
  | STATE_CLOSE_WAIT
  | STATE_CLOSING
  | STATE_LAST_ACK
  | STATE_CLOSED
  | STATE_SYN_SENT
  | STATE_TIME_WAIT
  deriving DecidableEq, Repr

/-- The struct `tcp.Connection`. -/
structure Connection where
  State : State
  LocalIP : Addr4
  LocalPort : Nat
  RemoteIP : Addr4
  RemotePort : Nat
  SendSeq : Nat
  RecvSeq : Nat
  SendAck : Nat
  deriving DecidableEq, Repr

/-- What a call of `HandleSyn` leaves behind when it does not panic: the returned pointer
(`none` is `nil`), the connection and the randomness source. -/
structure SynResult where
  response : Option TCPSegment
  conn : Connection
  rand : RandSource
  deriving DecidableEq, Repr

/-- The method `(*Connection).HandleSyn`. -/
def Connection.HandleSyn (c : Connection) (segment : TCPSegment) (remoteIP : Addr4)
    (remotePort : Nat) (rs : RandSource) : Except Fault SynResult :=
  if c.State ≠ State.STATE_LISTEN then
    .ok { response := none, conn := c, rand := rs }
  else
    match randomInitialSeqNum rs with
    | (.error err, _) => .error (Fault.entropy err)
    | (.ok randomSeq, rs1) =>
      let c := { c with State := State.STATE_SYN_RECEIVED }
      let c := { c with RecvSeq := segment.SeqNum }
      let c := { c with SendSeq := randomSeq }
      let c := { c with SendAck := u32 (c.RecvSeq + 1) }
      let c := { c with RemoteIP := remoteIP }
      let c := { c with RemotePort := remotePort }
      let synAckSegment : TCPSegment :=
        { SrcPort := c.LocalPort
          DestPort := c.RemotePort
          SeqNum := c.SendSeq
          AckNum := c.SendAck
          DataOffset := 5
          Flags := 0x12
          WindowSize := 0 }
      .ok { response := some synAckSegment, conn := c, rand := rs1 }

/-- The method `(*Connection).HandleAck`: the returned pointer and the connection after the
call. -/
def Connection.HandleAck (c : Connection) (segment : TCPSegment) :
    Option TCPSegment × Connection :=
  if c.State ≠ State.STATE_SYN_RECEIVED then
    (none, c)
  else if segment.AckNum ≠ u32 (c.SendSeq + 1) then
    (none, c)
  else
    let c := { c with State := State.STATE_ESTABLISHED }
    let c := { c with SendSeq := u32 (c.SendSeq + 1) }
    (none, c)

end tcp

/-! ## The dispatcher (`main.go`) -/

/-- The arguments of a call `sendPacket(pcapHandle, conn, ethFrame, ipPacket, response)`. -/
structure SendCall where
  ethFrame : ethernet.Frame
  ipPacket : ip.IPPacket
  tcpSegment : tcp.TCPSegment
  deriving DecidableEq, Repr

/-- What `handlePacket` leaves behind when it does not panic: the connection, the randomness
source, and the call of `sendPacket` it made, if any (`sendPacket` reads the connection and
does not assign to it). -/
structure PacketResult where
  conn : tcp.Connection
  rand : RandSource
  send : Option SendCall
  deriving DecidableEq, Repr

/-- The function `handlePacket` (logging left out). -/
def handlePacket (conn : tcp.Connection) (data : List Nat) (rs : RandSource) :
    Except Fault PacketResult :=
  match ethernet.Parse data with
  | .error _ => .ok { conn := conn, rand := rs, send := none }
  | .ok ethFrame =>
    match sliceFrom data 14 with
    | .error f => .error f
    | .ok ipData =>
      match ip.Parse ipData with
      | .error _ => .ok { conn := conn, rand := rs, send := none }
      | .ok ipPacket =>
        let tcpOffset := 14 + ipPacket.IHL * 4
        match sliceFrom data tcpOffset with
        | .error f => .error f
        | .ok tcpData =>
          match tcp.Parse tcpData with
          | .error _ => .ok { conn := conn, rand := rs, send := none }
          | .ok tcpSegment =>
            if tcpSegment.DestPort ≠ conn.LocalPort then
              .ok { conn := conn, rand := rs, send := none }
            else if tcpSegment.Flags &&& 0x02 ≠ 0 then
              let conn := { conn with RemoteIP := ipPacket.SrcIP }
              let conn := { conn with RemotePort := tcpSegment.SrcPort }
              let conn := { conn with LocalIP := ipPacket.DestIP }
              match conn.HandleSyn tcpSegment conn.RemoteIP conn.RemotePort rs with
              | .error f => .error f
              | .ok r =>
                match r.response with
                | some response =>
                  .ok { conn := r.conn, rand := r.rand,
                        send := some { ethFrame := ethFrame, ipPacket := ipPacket,
                                       tcpSegment := response } }
                | none => .ok { conn := r.conn, rand := r.rand, send := none }
            else if tcpSegment.Flags &&& 0x10 ≠ 0 then
              .ok { conn := conn, rand := rs, send := none }
            else
              .ok { conn := conn, rand := rs, send := none }

/-! ## The checksum engine (`utils`) and the pseudo-header checksum (`tcp/checksum.go`) -/

namespace utils

/-- Modelled from the spec: the end-around carry of the checksum engine `utils.ChecksumData`,
whose source file is not part of the sources at hand ("carrying any overflow beyond 16 bits
back into the running sum"). -/
def foldCarry (sum : Nat) : Nat := (sum &&& 0xFFFF) + (sum >>> 16)

/-- Modelled from the spec: the summation loop of `utils.ChecksumData` ("sum all 16-bit
big-endian words, carrying any overflow beyond 16 bits back into the running sum after each
addition"; "odd length padded conceptually with a trailing zero byte"). -/
def sumWords : List Nat → Nat → Nat
  | [], sum => sum
  | [b], sum => foldCarry (sum + (b <<< 8 ||| 0))
  | b0 :: b1 :: rest, sum => sumWords rest (foldCarry (sum + (b0 <<< 8 ||| b1)))

/-- Modelled from the spec: the function `utils.ChecksumData`, which `tcp.TCPChecksum` calls and
whose source file is not part of the sources at hand. After the summation loop the carry is
folded "once more at the end", and the result is "the one's complement (bitwise NOT) of the
final 16-bit sum", which for a 16-bit value `x` is `0xFFFF - x`. -/
def ChecksumData (data : List Nat) : Nat :=
  0xFFFF - u16 (foldCarry (sumWords data 0))

end utils

namespace tcp

/-- The function `tcp.TCPChecksum`. -/
def TCPChecksum (srcIP destIP : Addr4) (tcpSegment : List Nat) : Nat :=
  let pseudoHeader : List Nat := []
  let pseudoHeader := pseudoHeader ++ srcIP.toList
  let pseudoHeader := pseudoHeader ++ destIP.toList
  let pseudoHeader := pseudoHeader ++ [0]
  let pseudoHeader := pseudoHeader ++ [6]
  let pseudoHeader := pseudoHeader ++
    [u8 (tcpSegment.length >>> 8), u8 (tcpSegment.length &&& 0xFF)]
  let cData : List Nat := []
  let cData := cData ++ pseudoHeader
  let cData := cData ++ tcpSegment
  utils.ChecksumData cData

/-- The ranges of the Go field types of `TCPSegment`: `uint16` ports, `uint32` sequence and
acknowledgment numbers, `uint8` data offset, `uint16` flags and window. -/
def TCPSegment.WF (s : TCPSegment) : Prop :=
  s.SrcPort < 2 ^ 16 ∧ s.DestPort < 2 ^ 16 ∧ s.SeqNum < 2 ^ 32 ∧ s.AckNum < 2 ^ 32 ∧
    s.DataOffset < 2 ^ 8 ∧ s.Flags < 2 ^ 16 ∧ s.WindowSize < 2 ^ 16

instance (s : TCPSegment) : Decidable s.WF := by
  unfold TCPSegment.WF; infer_instance

/-- The integer value of a `State` constant, as numbered by `iota`. -/
def State.toNat : State → Nat
  | .STATE_LISTEN => 0
  | .STATE_SYN_RECEIVED => 1
  | .STATE_ESTABLISHED => 2
  | .STATE_FIN_WAIT_1 => 3
  | .STATE_FIN_WAIT_2 => 4
  | .STATE_CLOSE_WAIT => 5
  | .STATE_CLOSING => 6
  | .STATE_LAST_ACK => 7
  | .STATE_CLOSED => 8
  | .STATE_SYN_SENT => 9
  | .STATE_TIME_WAIT => 10

/-- One call of a handler of the state machine, with its arguments. -/
inductive Call where
  /-- A call `c.HandleSyn(segment, remoteIP, remotePort)`. -/
  | syn (segment : TCPSegment) (remoteIP : Addr4) (remotePort : Nat)
  /-- A call `c.HandleAck(segment)`. -/
  | ack (segment : TCPSegment)
  deriving DecidableEq, Repr

/-- The effect of one handler call on the connection and the randomness source. -/
def Connection.call (c : Connection) (rs : RandSource) : Call → Except Fault SynResult
  | .syn segment remoteIP remotePort => c.HandleSyn segment remoteIP remotePort rs
  | .ack segment =>
    .ok { response := (c.HandleAck segment).1, conn := (c.HandleAck segment).2, rand := rs }

/-- A finite sequence of handler calls on one connection, one after the other; a panic ends
the sequence. The result is the connection and the randomness source after the last call. -/
def Connection.run (c : Connection) (rs : RandSource) :
    List Call → Except Fault (Connection × RandSource)
  | [] => .ok (c, rs)
  | call :: calls =>
    match c.call rs call with
    | .error f => .error f
    | .ok r => r.conn.run r.rand calls

end tcp

/-- The function `sendPacket` (logging left out): the bytes it hands to
`pcapHandle.WritePacketData`. The function `ip.IPChecksum` is not part of the sources at hand
and is a parameter, as is the answer of the capture handle to whether the link type is a
loopback type. -/
def sendPacket (IPChecksum : List Nat → Nat) (isLoopback : Bool) (conn : tcp.Connection)
    (ethFrame : ethernet.Frame) (ipPacket : ip.IPPacket) (tcpSegment : tcp.TCPSegment) :
    List Nat :=
  let tcpData := tcp.Build tcpSegment
  let checksum := tcp.TCPChecksum ipPacket.SrcIP ipPacket.DestIP tcpData
  let tcpData := tcpData.set 16 (u8 (checksum >>> 8))
  let tcpData := tcpData.set 17 (u8 (checksum &&& 0xFF))
  let ipResp : ip.IPPacket :=
    { Version := 4
      IHL := 5
      TOS := 0
      TotalLen := u16 (20 + tcpData.length)
      Identification := 0
      Flags := 0
      FragmentOffset := 0
      TTL := 64
      Protocol := ip.IPProtocolTCP
      HeaderChecksum := 0
      SrcIP := conn.LocalIP
      DestIP := conn.RemoteIP }
  let ipData := match ip.Build ipResp with
    | .ok d => d
    | .error _ => []
  let ipChecksum := IPChecksum ipData
  let ipData := ipData.set 10 (u8 (ipChecksum >>> 8))
  let ipData := ipData.set 11 (u8 (ipChecksum &&& 0xFF))
  let packetData :=
    if isLoopback then
      [0x02, 0x00, 0x00, 0x00] ++ ipData
    else
      let ethResp : ethernet.Frame :=
        { DestMac := ethFrame.SrcMac, SrcMac := ethFrame.DestMac, EtherType := 0x0800 }
      let ethData := match ethResp.Build with
        | .ok d => d
        | .error _ => []
      ethData ++ ipData
  packetData ++ tcpData

/-! ## Example values -/

/-- The connection that `main` creates: state LISTEN, local port `LISTEN_PORT` (8080), every
other field zero. -/
def listenConn : tcp.Connection :=
  { State := tcp.State.STATE_LISTEN
    LocalIP := ⟨0, 0, 0, 0⟩
    LocalPort := 8080
    RemoteIP := ⟨0, 0, 0, 0⟩
    RemotePort := 0
    SendSeq := 0
    RecvSeq := 0
    SendAck := 0 }

/-- A SYN segment from port 12345 to port 8080 with sequence number 1000. -/
def synSegment : tcp.TCPSegment :=
  { SrcPort := 12345, DestPort := 8080, SeqNum := 1000, AckNum := 0, DataOffset := 5,
    Flags := 0x02, WindowSize := 65535 }

/-- A connection in SYN_RECEIVED between 10.0.0.1:8080 and 10.0.0.2:12345 whose SYN-ACK carried
the sequence number 7. -/
def synReceivedConn : tcp.Connection :=
  { State := tcp.State.STATE_SYN_RECEIVED
    LocalIP := ⟨10, 0, 0, 1⟩
    LocalPort := 8080
    RemoteIP := ⟨10, 0, 0, 2⟩
    RemotePort := 12345
    SendSeq := 7
    RecvSeq := 1000
    SendAck := 1001 }

/-- A 54-byte frame (Ethernet, IPv4 with IHL 5, TCP) from 10.0.0.2:12345 to 10.0.0.1:8080 with
only the ACK flag set, sequence number 1001 and acknowledgment number 8. -/
def ackFrame : List Nat :=
  [ 0xAA, 0xBB, 0xCC, 0xDD, 0xEE, 0xFF, 0x11, 0x22, 0x33, 0x44, 0x55, 0x66, 0x08, 0x00,
    0x45, 0x00, 0x00, 0x28, 0x00, 0x01, 0x40, 0x00, 0x40, 0x06, 0x00, 0x00,
    10, 0, 0, 2, 10, 0, 0, 1,
    0x30, 0x39, 0x1F, 0x90, 0x00, 0x00, 0x03, 0xE9, 0x00, 0x00, 0x00, 0x08,
    0x50, 0x10, 0xFF, 0xFF, 0x00, 0x00, 0x00, 0x00 ]

/-- An established connection between 10.0.0.1:8080 and 10.0.0.2:12345. -/
def establishedConn : tcp.Connection :=
  { State := tcp.State.STATE_ESTABLISHED
    LocalIP := ⟨10, 0, 0, 1⟩
    LocalPort := 8080
    RemoteIP := ⟨10, 0, 0, 2⟩
    RemotePort := 12345
    SendSeq := 8
    RecvSeq := 1000
    SendAck := 1001 }

/-- A 54-byte frame (Ethernet, IPv4 with IHL 5, TCP) from 10.0.0.99:4444 to 10.0.0.77:8080 with
only the SYN flag set and sequence number 5. -/
def straySynFrame : List Nat :=
  [ 0xAA, 0xBB, 0xCC, 0xDD, 0xEE, 0xFF, 0x11, 0x22, 0x33, 0x44, 0x55, 0x66, 0x08, 0x00,
    0x45, 0x00, 0x00, 0x28, 0x00, 0x02, 0x40, 0x00, 0x40, 0x06, 0x00, 0x00,
    10, 0, 0, 99, 10, 0, 0, 77,
    0x11, 0x5C, 0x1F, 0x90, 0x00, 0x00, 0x00, 0x05, 0x00, 0x00, 0x00, 0x00,
    0x50, 0x02, 0xFF, 0xFF, 0x00, 0x00, 0x00, 0x00 ]

/-- A 60-byte frame with EtherType `0x86DD` (IPv6) whose byte 14 is `0x6F`, carrying 6 bytes
after the 40-byte IPv6 header: TCP source port 12345, destination port 8080 and two more
bytes. Read as IPv4, byte 14 gives IHL 15. -/
def truncatedFrame : List Nat :=
  [ 0xAA, 0xBB, 0xCC, 0xDD, 0xEE, 0xFF, 0x11, 0x22, 0x33, 0x44, 0x55, 0x66, 0x86, 0xDD,
    0x6F, 0x00, 0x00, 0x00, 0x00, 0x06, 0x06, 0x40,
    0xFE, 0x80, 0, 0, 0, 0, 0, 0, 0, 0, 0, 0, 0, 0, 0, 2,
    0xFE, 0x80, 0, 0, 0, 0, 0, 0, 0, 0, 0, 0, 0, 0, 0, 1,
    0x30, 0x39, 0x1F, 0x90, 0x00, 0x00 ]

/-! ## Bit-level arithmetic -/

theorem or_eq_add_of_mod (k x y : Nat) (hx : x % 2 ^ k = 0) (hy : y < 2 ^ k) :
    x ||| y = x + y := by
  obtain ⟨c, rfl⟩ := Nat.dvd_of_mod_eq_zero hx
  exact (Nat.mul_add_lt_is_or hy c).symm

theorem and_0x01 (x : Nat) : x &&& 0x01 = x % 2 := Nat.and_pow_two_sub_one_eq_mod x 1

theorem and_0x0F (x : Nat) : x &&& 0x0F = x % 16 := Nat.and_pow_two_sub_one_eq_mod x 4

theorem and_0x1F (x : Nat) : x &&& 0x1F = x % 32 := Nat.and_pow_two_sub_one_eq_mod x 5

theorem and_0xFF (x : Nat) : x &&& 0xFF = x % 256 := Nat.and_pow_two_sub_one_eq_mod x 8

theorem exists_of_length_14 (l : List Nat) (h : l.length = 14) :
    ∃ a0 a1 a2 a3 a4 a5 a6 a7 a8 a9 a10 a11 a12 a13,
      l = [a0, a1, a2, a3, a4, a5, a6, a7, a8, a9, a10, a11, a12, a13] := by
  match l, h with
  | [a0, a1, a2, a3, a4, a5, a6, a7, a8, a9, a10, a11, a12, a13], _ =>
    exact ⟨a0, a1, a2, a3, a4, a5, a6, a7, a8, a9, a10, a11, a12, a13, rfl⟩

theorem exists_of_length_20 (l : List Nat) (h : l.length = 20) :
    ∃ a0 a1 a2 a3 a4 a5 a6 a7 a8 a9 a10 a11 a12 a13 a14 a15 a16 a17 a18 a19,
      l = [a0, a1, a2, a3, a4, a5, a6, a7, a8, a9, a10, a11, a12, a13, a14, a15, a16, a17,
        a18, a19] := by
  match l, h with
  | [a0, a1, a2, a3, a4, a5, a6, a7, a8, a9, a10, a11, a12, a13, a14, a15, a16, a17, a18,
      a19], _ =>
    exact ⟨a0, a1, a2, a3, a4, a5, a6, a7, a8, a9, a10, a11, a12, a13, a14, a15, a16, a17,
      a18, a19, rfl⟩

/-- Two bytes packed as `uint16(hi)<<8 | uint16(lo)` are the number `hi * 256 + lo`. -/
theorem pack16 (hi lo : Nat) (hhi : hi < 256) (hlo : lo < 256) :
    u16 (hi <<< 8) ||| lo = hi * 256 + lo := by
  have h1 : u16 (hi <<< 8) = hi * 256 := by
    simp only [u16, Nat.shiftLeft_eq]; omega
  rw [h1]
  exact or_eq_add_of_mod 8 _ _ (by omega) (by omega)

/-- Four bytes packed as `uint32(a)<<24 | uint32(b)<<16 | uint32(c)<<8 | uint32(d)`. -/
theorem pack32 (a b c d : Nat) (ha : a < 256) (hb : b < 256) (hc : c < 256) (hd : d < 256) :
    u32 (a <<< 24) ||| u32 (b <<< 16) ||| u32 (c <<< 8) ||| d
      = a * 16777216 + b * 65536 + c * 256 + d := by
  have h1 : u32 (a <<< 24) = a * 16777216 := by
    simp only [u32, Nat.shiftLeft_eq]; omega
  have h2 : u32 (b <<< 16) = b * 65536 := by
    simp only [u32, Nat.shiftLeft_eq]; omega
  have h3 : u32 (c <<< 8) = c * 256 := by
    simp only [u32, Nat.shiftLeft_eq]; omega
  rw [h1, h2, h3, or_eq_add_of_mod 24 (a * 16777216) (b * 65536) (by omega) (by omega),
    or_eq_add_of_mod 16 (a * 16777216 + b * 65536) (c * 256) (by omega) (by omega),
    or_eq_add_of_mod 8 (a * 16777216 + b * 65536 + c * 256) d (by omega) (by omega)]

theorem bigEndianUint16_eq (b0 b1 : Nat) (h0 : b0 < 256) (h1 : b1 < 256) :
    bigEndianUint16 b0 b1 = b0 * 256 + b1 := by
  unfold bigEndianUint16
  rw [Nat.lor_comm]
  exact pack16 b0 b1 h0 h1

theorem unpack16_hi (hi lo : Nat) (hhi : hi < 256) (hlo : lo < 256) :
    u8 ((u16 (hi <<< 8) ||| lo) >>> 8) = hi := by
  rw [pack16 hi lo hhi hlo]
  simp only [u8, Nat.shiftRight_eq_div_pow]
  omega

theorem unpack16_lo (hi lo : Nat) (hhi : hi < 256) (hlo : lo < 256) :
    u8 ((u16 (hi <<< 8) ||| lo) &&& 0xFF) = lo := by
  rw [pack16 hi lo hhi hlo, and_0xFF]
  simp only [u8]
  omega

theorem unpack32_0 (a b c d : Nat) (ha : a < 256) (hb : b < 256) (hc : c < 256)
    (hd : d < 256) :
    u8 ((u32 (a <<< 24) ||| u32 (b <<< 16) ||| u32 (c <<< 8) ||| d) >>> 24) = a := by
  rw [pack32 a b c d ha hb hc hd]
  simp only [u8, Nat.shiftRight_eq_div_pow]
  omega

theorem unpack32_1 (a b c d : Nat) (ha : a < 256) (hb : b < 256) (hc : c < 256)
    (hd : d < 256) :
    u8 (((u32 (a <<< 24) ||| u32 (b <<< 16) ||| u32 (c <<< 8) ||| d) >>> 16) &&& 0xFF)
      = b := by
  rw [pack32 a b c d ha hb hc hd, and_0xFF]
  simp only [u8, Nat.shiftRight_eq_div_pow]
  omega

theorem unpack32_2 (a b c d : Nat) (ha : a < 256) (hb : b < 256) (hc : c < 256)
    (hd : d < 256) :
    u8 (((u32 (a <<< 24) ||| u32 (b <<< 16) ||| u32 (c <<< 8) ||| d) >>> 8) &&& 0xFF)
      = c := by
  rw [pack32 a b c d ha hb hc hd, and_0xFF]
  simp only [u8, Nat.shiftRight_eq_div_pow]
  omega

theorem unpack32_3 (a b c d : Nat) (ha : a < 256) (hb : b < 256) (hc : c < 256)
    (hd : d < 256) :
    u8 ((u32 (a <<< 24) ||| u32 (b <<< 16) ||| u32 (c <<< 8) ||| d) &&& 0xFF) = d := by
  rw [pack32 a b c d ha hb hc hd, and_0xFF]
  simp only [u8]
  omega

/-- Byte 0 of an IPv4 header survives the split into version and IHL. -/
theorem ip_byte0 (b : Nat) (h : b < 256) :
    u8 ((b >>> 4) <<< 4) ||| ((b &&& 0x0F) &&& 0x0F) = b := by
  simp only [and_0x0F, u8, Nat.shiftRight_eq_div_pow, Nat.shiftLeft_eq]
  rw [or_eq_add_of_mod 4 _ _ (by omega) (by omega)]
  omega

/-- Byte 6 of an IPv4 header survives the split into flags and fragment offset. -/
theorem ip_byte6 (b6 b7 : Nat) (h6 : b6 < 256) (h7 : b7 < 256) :
    u8 ((b6 >>> 5) <<< 5) ||| u8 (((u16 ((b6 &&& 0x1F) <<< 8) ||| b7) >>> 8) &&& 0x1F)
      = b6 := by
  rw [and_0x1F b6, pack16 (b6 % 32) b7 (by omega) h7, and_0x1F]
  simp only [u8, Nat.shiftRight_eq_div_pow, Nat.shiftLeft_eq]
  rw [or_eq_add_of_mod 5 _ _ (by omega) (by omega)]
  omega

theorem ip_byte7 (b6 b7 : Nat) (h7 : b7 < 256) :
    u8 ((u16 ((b6 &&& 0x1F) <<< 8) ||| b7) &&& 0xFF) = b7 := by
  rw [and_0x1F b6, pack16 (b6 % 32) b7 (by omega) h7, and_0xFF]
  simp only [u8]
  omega

/-- Byte 12 of a TCP header after parsing and building: the data offset nibble and the NS bit
are kept, the three reserved bits between them are not. -/
theorem tcp_byte12 (b12 b13 : Nat) (h12 : b12 < 256) (h13 : b13 < 256) :
    u8 (((b12 >>> 4) &&& 0x0F) <<< 4)
        ||| u8 (((u16 ((b12 &&& 0x01) <<< 8) ||| b13) >>> 8) &&& 0x01)
      = b12 / 16 * 16 + b12 % 2 := by
  rw [and_0x01 b12, pack16 (b12 % 2) b13 (by omega) h13, and_0x01, and_0x0F]
  simp only [u8, Nat.shiftRight_eq_div_pow, Nat.shiftLeft_eq]
  rw [or_eq_add_of_mod 4 _ _ (by omega) (by omega)]
  omega

theorem tcp_byte13 (b12 b13 : Nat) (h13 : b13 < 256) :
    u8 ((u16 ((b12 &&& 0x01) <<< 8) ||| b13) &&& 0xFF) = b13 := by
  rw [and_0x01 b12, pack16 (b12 % 2) b13 (by omega) h13, and_0xFF]
  simp only [u8]
  omega

set_option maxRecDepth 100000 in
theorem and_0xF1 : ∀ b < 256, b &&& 0xF1 = b / 16 * 16 + b % 2 := by decide

set_option maxRecDepth 100000 in
theorem and_0x0E : ∀ b < 256, (b / 16 * 16 + b % 2 = b ↔ b &&& 0x0E = 0) := by decide

/-! ## Lengths accepted by the parsers -/

theorem ethernet_parse_ok_length (data : List Nat) (f : ethernet.Frame)
    (h : ethernet.Parse data = .ok f) : 14 ≤ data.length := by
  unfold ethernet.Parse at h
  split at h
  · cases h
  · omega

theorem tcp_parse_ok_length (data : List Nat) (s : tcp.TCPSegment)
    (h : tcp.Parse data = .ok s) : 20 ≤ data.length := by
  unfold tcp.Parse at h
  split at h
  · cases h
  · omega

/-! ## Codec round trips -/

/-- C3. Every 14-byte input is parsed by `ethernet.Parse`, and `Build` of the parsed frame gives
the 14 input bytes back; the input `AA BB CC DD EE FF 11 22 33 44 55 66 08 00` parses to
destination `AA:BB:CC:DD:EE:FF`, source `11:22:33:44:55:66` and EtherType `0x0800`. -/
theorem ethernet_build_parse (data : List Nat) (hlen : data.length = 14) (hb : Bytes data) :
    (∃ f, ethernet.Parse data = .ok f ∧ f.Build = .ok data) ∧
    ethernet.Parse [0xAA, 0xBB, 0xCC, 0xDD, 0xEE, 0xFF, 0x11, 0x22, 0x33, 0x44, 0x55, 0x66,
        0x08, 0x00]
      = .ok { DestMac := ⟨0xAA, 0xBB, 0xCC, 0xDD, 0xEE, 0xFF⟩
              SrcMac := ⟨0x11, 0x22, 0x33, 0x44, 0x55, 0x66⟩
              EtherType := 0x0800 } := by
  refine ⟨?_, by decide⟩
  obtain ⟨a0, a1, a2, a3, a4, a5, a6, a7, a8, a9, a10, a11, a12, a13, rfl⟩ :=
    exists_of_length_14 data hlen
  have h12 : a12 < 256 := hb a12 (by simp)
  have h13 : a13 < 256 := hb a13 (by simp)
  refine ⟨_, rfl, ?_⟩
  simp only [ethernet.Frame.Build, Addr6.toList, List.cons_append, List.nil_append,
    List.getElem_cons_succ, List.getElem_cons_zero, bigEndianUint16_eq a12 a13 h12 h13, u8,
    Nat.shiftRight_eq_div_pow]
  have e1 : (a12 * 256 + a13) / 2 ^ 8 % 256 = a12 := by omega
  have e2 : (a12 * 256 + a13) % 256 = a13 := by omega
  rw [e1, e2]

/-- The 14-byte frame header of the scenario in C3 satisfies the hypotheses of
`ethernet_build_parse`. -/
theorem ethernet_build_parse_witness :
    (∃ f, ethernet.Parse [0xAA, 0xBB, 0xCC, 0xDD, 0xEE, 0xFF, 0x11, 0x22, 0x33, 0x44, 0x55,
        0x66, 0x08, 0x00] = .ok f ∧
      f.Build = .ok [0xAA, 0xBB, 0xCC, 0xDD, 0xEE, 0xFF, 0x11, 0x22, 0x33, 0x44, 0x55, 0x66,
        0x08, 0x00]) :=
  (ethernet_build_parse [0xAA, 0xBB, 0xCC, 0xDD, 0xEE, 0xFF, 0x11, 0x22, 0x33, 0x44, 0x55,
    0x66, 0x08, 0x00] (by decide) (by decide)).1

/-- C2. For every 20-byte input whose byte 0 has low nibble 5, `ip.Parse` succeeds and
`ip.Build` of the parsed packet succeeds and returns the 20 input bytes. -/
theorem ip_build_parse (data : List Nat) (hlen : data.length = 20) (hb : Bytes data)
    (hihl : data[0] &&& 0x0F = 5) :
    ∃ p, ip.Parse data = .ok p ∧ ip.Build p = .ok data := by
  obtain ⟨a0, a1, a2, a3, a4, a5, a6, a7, a8, a9, a10, a11, a12, a13, a14, a15, a16, a17, a18,
    a19, rfl⟩ := exists_of_length_20 data hlen
  have h0 : a0 < 256 := hb a0 (by simp)
  have h2 : a2 < 256 := hb a2 (by simp)
  have h3 : a3 < 256 := hb a3 (by simp)
  have h4 : a4 < 256 := hb a4 (by simp)
  have h5 : a5 < 256 := hb a5 (by simp)
  have h6 : a6 < 256 := hb a6 (by simp)
  have h7 : a7 < 256 := hb a7 (by simp)
  have h9 : a9 < 256 := hb a9 (by simp)
  have h10 : a10 < 256 := hb a10 (by simp)
  have h11 : a11 < 256 := hb a11 (by simp)
  have e9 : u8 a9 = a9 := Nat.mod_eq_of_lt h9
  refine ⟨_, rfl, ?_⟩
  simp only [ip.Build, Addr4.toList, ip.parseIPProtocol, List.cons_append, List.nil_append,
    List.getElem_cons_succ, List.getElem_cons_zero, ip_byte0 a0 h0, ip_byte6 a6 a7 h6 h7,
    ip_byte7 a6 a7 h7, unpack16_hi a2 a3 h2 h3, unpack16_lo a2 a3 h2 h3,
    unpack16_hi a4 a5 h4 h5, unpack16_lo a4 a5 h4 h5, unpack16_hi a10 a11 h10 h11,
    unpack16_lo a10 a11 h10 h11, e9]

/-- An IPv4 header with IHL 5 satisfies the hypotheses of `ip_build_parse`. -/
theorem ip_build_parse_witness :
    ∃ p, ip.Parse [0x45, 0x10, 0x00, 0x28, 0xAB, 0xCD, 0x5F, 0xFF, 0x40, 0x06, 0x12, 0x34,
        192, 168, 1, 2, 10, 0, 0, 255] = .ok p ∧
      ip.Build p = .ok [0x45, 0x10, 0x00, 0x28, 0xAB, 0xCD, 0x5F, 0xFF, 0x40, 0x06, 0x12, 0x34,
        192, 168, 1, 2, 10, 0, 0, 255] :=
  ip_build_parse [0x45, 0x10, 0x00, 0x28, 0xAB, 0xCD, 0x5F, 0xFF, 0x40, 0x06, 0x12, 0x34,
    192, 168, 1, 2, 10, 0, 0, 255] (by decide) (by decide) (by decide)

/-- C1, counterexample. A 20-byte TCP header with data offset 5 and a checksum in bytes 16-17
(`AB CD`) is parsed, and `tcp.Build` of the parsed segment is not the input. -/
theorem tcp_build_parse_counterexample :
    ∃ s, tcp.Parse [0x30, 0x39, 0x1F, 0x90, 0, 0, 0, 1, 0, 0, 0, 0, 0x50, 0x02, 0xFF, 0xFF,
        0xAB, 0xCD, 0, 0] = .ok s ∧
      tcp.Build s ≠ [0x30, 0x39, 0x1F, 0x90, 0, 0, 0, 1, 0, 0, 0, 0, 0x50, 0x02, 0xFF, 0xFF,
        0xAB, 0xCD, 0, 0] :=
  ⟨_, rfl, by decide⟩

/-- C1, amended. For every 20-byte input whose byte 12 has high nibble 5, `tcp.Parse` succeeds
and `tcp.Build` of the parsed segment is the input with the reserved bits 1-3 of byte 12
cleared and bytes 16-19 set to zero: bytes 0-11 and 13-15 and the data offset and NS bit of
byte 12 are reproduced. The result is the input itself exactly when the input has these
reserved bits clear and bytes 16-19 zero. -/
theorem tcp_build_parse (data : List Nat) (hlen : data.length = 20) (hb : Bytes data)
    (hoff : data[12] >>> 4 = 5) :
    ∃ s, tcp.Parse data = .ok s ∧
      tcp.Build s
        = data.take 12 ++ [data[12] &&& 0xF1, data[13], data[14], data[15], 0, 0, 0, 0] ∧
      (tcp.Build s = data ↔ (data[12] &&& 0x0E = 0 ∧ data.drop 16 = [0, 0, 0, 0])) := by
  obtain ⟨a0, a1, a2, a3, a4, a5, a6, a7, a8, a9, a10, a11, a12, a13, a14, a15, a16, a17, a18,
    a19, rfl⟩ := exists_of_length_20 data hlen
  have h0 : a0 < 256 := hb a0 (by simp)
  have h1 : a1 < 256 := hb a1 (by simp)
  have h2 : a2 < 256 := hb a2 (by simp)
  have h3 : a3 < 256 := hb a3 (by simp)
  have h4 : a4 < 256 := hb a4 (by simp)
  have h5 : a5 < 256 := hb a5 (by simp)
  have h6 : a6 < 256 := hb a6 (by simp)
  have h7 : a7 < 256 := hb a7 (by simp)
  have h8 : a8 < 256 := hb a8 (by simp)
  have h9 : a9 < 256 := hb a9 (by simp)
  have h10 : a10 < 256 := hb a10 (by simp)
  have h11 : a11 < 256 := hb a11 (by simp)
  have h12 : a12 < 256 := hb a12 (by simp)
  have h13 : a13 < 256 := hb a13 (by simp)
  have h14 : a14 < 256 := hb a14 (by simp)
  have h15 : a15 < 256 := hb a15 (by simp)
  have hbuild : ∀ s, tcp.Parse [a0, a1, a2, a3, a4, a5, a6, a7, a8, a9, a10, a11, a12, a13,
      a14, a15, a16, a17, a18, a19] = .ok s →
      tcp.Build s = [a0, a1, a2, a3, a4, a5, a6, a7, a8, a9, a10, a11, a12 / 16 * 16 + a12 % 2,
        a13, a14, a15, 0, 0, 0, 0] := by
    intro s hs
    have hs2 : s = _ := (Except.ok.inj hs).symm
    subst hs2
    simp only [tcp.Build, List.getElem_cons_succ, List.getElem_cons_zero,
      unpack16_hi a0 a1 h0 h1, unpack16_lo a0 a1 h0 h1, unpack16_hi a2 a3 h2 h3,
      unpack16_lo a2 a3 h2 h3, unpack32_0 a4 a5 a6 a7 h4 h5 h6 h7,
      unpack32_1 a4 a5 a6 a7 h4 h5 h6 h7, unpack32_2 a4 a5 a6 a7 h4 h5 h6 h7,
      unpack32_3 a4 a5 a6 a7 h4 h5 h6 h7, unpack32_0 a8 a9 a10 a11 h8 h9 h10 h11,
      unpack32_1 a8 a9 a10 a11 h8 h9 h10 h11, unpack32_2 a8 a9 a10 a11 h8 h9 h10 h11,
      unpack32_3 a8 a9 a10 a11 h8 h9 h10 h11, tcp_byte12 a12 a13 h12 h13,
      tcp_byte13 a12 a13 h13, unpack16_hi a14 a15 h14 h15, unpack16_lo a14 a15 h14 h15]
  refine ⟨_, rfl, ?_, ?_⟩
  · rw [hbuild _ rfl]
    simp only [List.take, List.cons_append, List.nil_append, List.getElem_cons_succ,
      List.getElem_cons_zero, and_0xF1 a12 h12]
  · rw [hbuild _ rfl]
    simp only [List.drop, List.cons.injEq, true_and, and_true, List.getElem_cons_succ,
      List.getElem_cons_zero, and_0x0E a12 h12]
    constructor
    · rintro ⟨hr, e16, e17, e18, e19⟩
      exact ⟨hr, e16.symm, e17.symm, e18.symm, e19.symm⟩
    · rintro ⟨hr, e16, e17, e18, e19⟩
      exact ⟨hr, e16.symm, e17.symm, e18.symm, e19.symm⟩

/-- The header of the counterexample to C1 satisfies the hypotheses of `tcp_build_parse`: what
comes back is the header with bytes 16-17 zeroed. -/
theorem tcp_build_parse_witness :
    ∃ s, tcp.Parse [0x30, 0x39, 0x1F, 0x90, 0, 0, 0, 1, 0, 0, 0, 0, 0x50, 0x02, 0xFF, 0xFF,
        0xAB, 0xCD, 0, 0] = .ok s ∧
      tcp.Build s = [0x30, 0x39, 0x1F, 0x90, 0, 0, 0, 1, 0, 0, 0, 0, 0x50, 0x02, 0xFF, 0xFF,
        0, 0, 0, 0] := by
  obtain ⟨s, hs, hbuild, -⟩ := tcp_build_parse [0x30, 0x39, 0x1F, 0x90, 0, 0, 0, 1, 0, 0, 0, 0,
    0x50, 0x02, 0xFF, 0xFF, 0xAB, 0xCD, 0, 0] (by decide) (by decide) (by decide)
  exact ⟨s, hs, hbuild⟩

/-! ## The handshake -/

/-- C4. In state LISTEN, when the randomness source delivers `N`, `HandleSyn` on a segment with
sequence number `S` moves the connection to SYN_RECEIVED and returns a segment with flags
`0x12` (SYN+ACK), sequence number `N`, acknowledgment number `S + 1` modulo `2^32` and data
offset 5. -/
theorem handleSyn_listen (c : tcp.Connection) (segment : tcp.TCPSegment) (remoteIP : Addr4)
    (remotePort : Nat) (rs rs1 : RandSource) (N : Nat)
    (hstate : c.State = tcp.State.STATE_LISTEN)
    (hrand : tcp.randomInitialSeqNum rs = (.ok N, rs1)) :
    ∃ r resp, c.HandleSyn segment remoteIP remotePort rs = .ok r ∧
      r.conn.State = tcp.State.STATE_SYN_RECEIVED ∧
      r.response = some resp ∧
      resp.Flags = 0x12 ∧
      resp.SeqNum = N ∧
      resp.AckNum = (segment.SeqNum + 1) % 2 ^ 32 ∧
      resp.DataOffset = 5 := by
  simp only [tcp.Connection.HandleSyn, hstate, hrand, ne_eq, not_true_eq_false, if_false]
  exact ⟨_, _, rfl, rfl, rfl, rfl, rfl, rfl, rfl⟩

/-- The connection of `main`, a SYN with sequence number 1000 and a randomness source that
delivers the bytes `00 00 00 07` satisfy the hypotheses of `handleSyn_listen`. -/
theorem handleSyn_listen_witness :
    ∃ r resp, listenConn.HandleSyn synSegment ⟨10, 0, 0, 2⟩ 12345
        { pending := [some ⟨0, 0, 0, 7⟩], reads := 0 } = .ok r ∧
      r.conn.State = tcp.State.STATE_SYN_RECEIVED ∧
      r.response = some resp ∧
      resp.Flags = 0x12 ∧
      resp.SeqNum = 7 ∧
      resp.AckNum = (synSegment.SeqNum + 1) % 2 ^ 32 ∧
      resp.DataOffset = 5 :=
  handleSyn_listen listenConn synSegment ⟨10, 0, 0, 2⟩ 12345
    { pending := [some ⟨0, 0, 0, 7⟩], reads := 0 } { pending := [], reads := 1 } 7 rfl rfl

/-- C5, counterexample. After `HandleSyn` on the connection of `main` with a SYN of sequence
number 1000, the field `RecvSeq` is 1000, not 1001, and the acknowledgment number of the
returned segment (1001) differs from it. -/
theorem handleSyn_recvSeq_counterexample :
    ∃ r resp, listenConn.HandleSyn synSegment ⟨10, 0, 0, 2⟩ 12345
        { pending := [some ⟨0, 0, 0, 7⟩], reads := 0 } = .ok r ∧
      r.response = some resp ∧
      r.conn.RecvSeq ≠ (synSegment.SeqNum + 1) % 2 ^ 32 ∧
      resp.AckNum ≠ r.conn.RecvSeq :=
  ⟨_, _, rfl, rfl, by decide, by decide⟩

/-- C5, amended. In state LISTEN, when the randomness source delivers a value, `HandleSyn`
succeeds and leaves `RecvSeq` equal to the sequence number of the segment, `SendAck` equal to
that number plus 1 modulo `2^32`, and the acknowledgment number of the returned segment equal
to `SendAck`. -/
theorem handleSyn_recvSeq (c : tcp.Connection) (segment : tcp.TCPSegment) (remoteIP : Addr4)
    (remotePort : Nat) (rs rs1 : RandSource) (N : Nat)
    (hstate : c.State = tcp.State.STATE_LISTEN)
    (hrand : tcp.randomInitialSeqNum rs = (.ok N, rs1)) :
    ∃ r resp, c.HandleSyn segment remoteIP remotePort rs = .ok r ∧
      r.response = some resp ∧
      r.conn.RecvSeq = segment.SeqNum ∧
      r.conn.SendAck = (segment.SeqNum + 1) % 2 ^ 32 ∧
      resp.AckNum = r.conn.SendAck := by
  simp only [tcp.Connection.HandleSyn, hstate, hrand, ne_eq, not_true_eq_false, if_false]
  exact ⟨_, _, rfl, rfl, rfl, rfl, rfl⟩

/-- A SYN with the largest sequence number satisfies the hypotheses of `handleSyn_recvSeq`:
`RecvSeq` is `0xFFFFFFFF` and `SendAck` wraps to 0. -/
theorem handleSyn_recvSeq_witness :
    ∃ r resp, listenConn.HandleSyn { synSegment with SeqNum := 0xFFFFFFFF } ⟨10, 0, 0, 2⟩ 12345
        { pending := [some ⟨1, 2, 3, 4⟩], reads := 0 } = .ok r ∧
      r.response = some resp ∧
      r.conn.RecvSeq = 0xFFFFFFFF ∧
      r.conn.SendAck = 0 ∧
      resp.AckNum = r.conn.SendAck :=
  handleSyn_recvSeq listenConn { synSegment with SeqNum := 0xFFFFFFFF } ⟨10, 0, 0, 2⟩ 12345
    { pending := [some ⟨1, 2, 3, 4⟩], reads := 0 } { pending := [], reads := 1 } 0x01020304
    rfl rfl

/-- C6. In state LISTEN, when the randomness source delivers a value, `HandleSyn` returns a
response `resp`, and `HandleAck` on any segment whose acknowledgment number is
`resp.SeqNum + 1` modulo `2^32` then returns no segment and changes the connection in exactly
two fields: the state becomes ESTABLISHED and `SendSeq` grows by 1 modulo `2^32`. -/
theorem handleAck_after_handleSyn (c : tcp.Connection) (segment : tcp.TCPSegment)
    (remoteIP : Addr4) (remotePort : Nat) (rs rs1 : RandSource) (N : Nat)
    (hstate : c.State = tcp.State.STATE_LISTEN)
    (hrand : tcp.randomInitialSeqNum rs = (.ok N, rs1)) :
    ∃ r resp, c.HandleSyn segment remoteIP remotePort rs = .ok r ∧
      r.response = some resp ∧
      ∀ ack : tcp.TCPSegment, ack.AckNum = (resp.SeqNum + 1) % 2 ^ 32 →
        r.conn.HandleAck ack
          = (none, { r.conn with State := tcp.State.STATE_ESTABLISHED
                                 SendSeq := (r.conn.SendSeq + 1) % 2 ^ 32 }) := by
  simp only [tcp.Connection.HandleSyn, hstate, hrand, ne_eq, not_true_eq_false, if_false]
  refine ⟨_, _, rfl, rfl, ?_⟩
  intro ack hack
  have hack2 : ack.AckNum = u32 (N + 1) := hack
  simp only [tcp.Connection.HandleAck, hack2, ne_eq, not_true_eq_false, if_false]
  rfl

/-- The hypotheses of `handleAck_after_handleSyn` hold when the randomness source delivers
`FF FF FF FF`: the response carries sequence number `0xFFFFFFFF`, and an ACK with
acknowledgment number 0 establishes the connection with `SendSeq` 0. -/
theorem handleAck_after_handleSyn_witness :
    ∃ r resp, listenConn.HandleSyn synSegment ⟨10, 0, 0, 2⟩ 12345
        { pending := [some ⟨255, 255, 255, 255⟩], reads := 0 } = .ok r ∧
      r.response = some resp ∧
      resp.SeqNum = 0xFFFFFFFF ∧
      (r.conn.HandleAck { synSegment with Flags := 0x10, AckNum := 0 }).1 = none ∧
      (r.conn.HandleAck { synSegment with Flags := 0x10, AckNum := 0 }).2.State
        = tcp.State.STATE_ESTABLISHED ∧
      (r.conn.HandleAck { synSegment with Flags := 0x10, AckNum := 0 }).2.SendSeq = 0 := by
  obtain ⟨r, resp, hr, hresp, hack⟩ := handleAck_after_handleSyn listenConn synSegment
    ⟨10, 0, 0, 2⟩ 12345 { pending := [some ⟨255, 255, 255, 255⟩], reads := 0 }
    { pending := [], reads := 1 } 0xFFFFFFFF rfl rfl
  have hr2 : r = _ := (Except.ok.inj hr).symm
  subst hr2
  have hresp2 : resp = _ := (Option.some.inj hresp).symm
  subst hresp2
  refine ⟨_, _, rfl, rfl, rfl, ?_⟩
  rw [hack { synSegment with Flags := 0x10, AckNum := 0 } rfl]
  exact ⟨rfl, rfl, rfl⟩

/-- C7. When the state is not SYN_RECEIVED, or the acknowledgment number of the segment is not
`SendSeq + 1` modulo `2^32`, `HandleAck` returns no segment and leaves the connection as it
was. -/
theorem handleAck_rejected (c : tcp.Connection) (segment : tcp.TCPSegment)
    (h : c.State ≠ tcp.State.STATE_SYN_RECEIVED ∨ segment.AckNum ≠ (c.SendSeq + 1) % 2 ^ 32) :
    c.HandleAck segment = (none, c) := by
  unfold tcp.Connection.HandleAck
  by_cases hs : c.State = tcp.State.STATE_SYN_RECEIVED
  · have ha : segment.AckNum ≠ u32 (c.SendSeq + 1) := by
      rcases h with h | h
      · exact absurd hs h
      · exact h
    simp only [hs, ne_eq, not_true_eq_false, if_false, ha, not_false_eq_true, if_true]
  · simp only [ne_eq, hs, not_false_eq_true, if_true]

/-- A connection in SYN_RECEIVED with `SendSeq` 7 receiving acknowledgment number 9 satisfies
the hypothesis of `handleAck_rejected` and stays in SYN_RECEIVED. -/
theorem handleAck_rejected_witness :
    synReceivedConn.HandleAck { synSegment with Flags := 0x10, AckNum := 9 }
        = (none, synReceivedConn) ∧
      synReceivedConn.State = tcp.State.STATE_SYN_RECEIVED :=
  ⟨handleAck_rejected synReceivedConn { synSegment with Flags := 0x10, AckNum := 9 }
    (Or.inr (by decide)), rfl⟩

/-- C8. When the state is not LISTEN, `HandleSyn` returns without a panic, returns no segment,
and leaves the connection and the randomness source as they were. -/
theorem handleSyn_not_listen (c : tcp.Connection) (segment : tcp.TCPSegment) (remoteIP : Addr4)
    (remotePort : Nat) (rs : RandSource) (h : c.State ≠ tcp.State.STATE_LISTEN) :
    c.HandleSyn segment remoteIP remotePort rs = .ok { response := none, conn := c, rand := rs } := by
  simp only [tcp.Connection.HandleSyn, ne_eq, h, not_false_eq_true, if_true]

/-- An established connection and a randomness source whose next read would fail satisfy the
hypothesis of `handleSyn_not_listen`. -/
theorem handleSyn_not_listen_witness :
    establishedConn.HandleSyn synSegment ⟨10, 0, 0, 99⟩ 4444 { pending := [none], reads := 3 }
      = .ok { response := none, conn := establishedConn,
              rand := { pending := [none], reads := 3 } } :=
  handleSyn_not_listen establishedConn synSegment ⟨10, 0, 0, 99⟩ 4444
    { pending := [none], reads := 3 } (by decide)

/-! ## The dispatcher -/

/-- C9, the code at the failing input. The frame `ackFrame` decodes to a segment for the local
port with ACK set, SYN clear and acknowledgment number `SendSeq + 1`; `HandleAck` on that
segment would establish the connection `synReceivedConn`, but `handlePacket` returns with the
connection unchanged, still in SYN_RECEIVED. -/
theorem handlePacket_ack_not_dispatched (rs : RandSource) :
    ∃ seg, tcp.Parse (ackFrame.drop 34) = .ok seg ∧
      seg.DestPort = synReceivedConn.LocalPort ∧
      seg.Flags &&& 0x10 ≠ 0 ∧
      seg.Flags &&& 0x02 = 0 ∧
      seg.AckNum = (synReceivedConn.SendSeq + 1) % 2 ^ 32 ∧
      (synReceivedConn.HandleAck seg).2.State = tcp.State.STATE_ESTABLISHED ∧
      handlePacket synReceivedConn ackFrame rs
        = .ok { conn := synReceivedConn, rand := rs, send := none } ∧
      synReceivedConn.State = tcp.State.STATE_SYN_RECEIVED :=
  ⟨_, rfl, by decide, by decide, by decide, by decide, by decide, rfl, rfl⟩

/-- C10, the code at the failing input. The frame `straySynFrame` carries a SYN for the local
port of the established connection `establishedConn`. `HandleSyn` on the decoded segment
returns at its state guard with the connection unchanged, and `handlePacket` sends nothing,
but the connection that `handlePacket` leaves is not the one it was given: by its own
assignments ahead of the call it has another remote address, another remote port and another
local address. -/
theorem handlePacket_syn_overwrites_peer :
    ∃ seg r, tcp.Parse (straySynFrame.drop 34) = .ok seg ∧
      seg.DestPort = establishedConn.LocalPort ∧
      seg.Flags &&& 0x02 ≠ 0 ∧
      establishedConn.State ≠ tcp.State.STATE_LISTEN ∧
      establishedConn.HandleSyn seg ⟨10, 0, 0, 99⟩ 4444 { pending := [], reads := 0 }
        = .ok { response := none, conn := establishedConn,
                rand := { pending := [], reads := 0 } } ∧
      handlePacket establishedConn straySynFrame { pending := [], reads := 0 } = .ok r ∧
      r.send = none ∧
      r.rand = { pending := [], reads := 0 } ∧
      r.conn ≠ establishedConn ∧
      r.conn = { establishedConn with RemoteIP := ⟨10, 0, 0, 99⟩, RemotePort := 4444,
                                      LocalIP := ⟨10, 0, 0, 77⟩ } ∧
      establishedConn.RemoteIP = ⟨10, 0, 0, 2⟩ ∧
      establishedConn.RemotePort = 12345 ∧
      establishedConn.LocalIP = ⟨10, 0, 0, 1⟩ :=
  ⟨_, _, rfl, by decide, by decide, by decide, rfl, rfl, rfl, rfl, by decide, rfl, rfl, rfl,
    rfl⟩

/-! ## Decoding -/

theorem getElem_eq_of_take_eq {l l' : List Nat} {n : Nat} (h : l.take n = l'.take n) (i : Nat)
    (hi : i < n) (hl : i < l.length) (hl' : i < l'.length) : l[i] = l'[i] := by
  have h1 : l[i]? = l'[i]? := by
    have e1 : (l.take n)[i]? = l[i]? := by rw [List.getElem?_take, if_pos hi]
    have e2 : (l'.take n)[i]? = l'[i]? := by rw [List.getElem?_take, if_pos hi]
    rw [← e1, ← e2, h]
  rw [List.getElem?_eq_getElem hl, List.getElem?_eq_getElem hl'] at h1
  exact Option.some.inj h1

/-- C11, the code at the failing input. On the 60-byte frame `truncatedFrame` the Ethernet and
IPv4 decoders succeed, the IHL nibble 15 puts the TCP header at offset 74, and `handlePacket`
panics on the slice expression `data[74:]`, whatever the connection, instead of discarding
the frame. -/
theorem handlePacket_truncated_frame_panics (conn : tcp.Connection) (rs : RandSource) :
    truncatedFrame.length = 60 ∧ Bytes truncatedFrame ∧
      (∃ f, ethernet.Parse truncatedFrame = .ok f) ∧
      (∃ p, ip.Parse (truncatedFrame.drop 14) = .ok p ∧ p.IHL = 15) ∧
      handlePacket conn truncatedFrame rs = .error (Fault.sliceBounds 74 60) :=
  ⟨rfl, by decide, ⟨_, rfl⟩, ⟨_, rfl, rfl⟩, rfl⟩

/-- C12. Each decoder returns an error exactly when its input is shorter than the fixed header
(14, 20 and 20 bytes) and succeeds on every other input, and what it returns is determined
by the first 14, 20 and 16 bytes of the input. -/
theorem parse_error_iff_short (data data' : List Nat) :
    ((∃ e, ethernet.Parse data = .error e) ↔ data.length < 14) ∧
    ((∃ e, ip.Parse data = .error e) ↔ data.length < 20) ∧
    ((∃ e, tcp.Parse data = .error e) ↔ data.length < 20) ∧
    ((∃ f, ethernet.Parse data = .ok f) ↔ 14 ≤ data.length) ∧
    ((∃ p, ip.Parse data = .ok p) ↔ 20 ≤ data.length) ∧
    ((∃ s, tcp.Parse data = .ok s) ↔ 20 ≤ data.length) ∧
    (14 ≤ data.length → 14 ≤ data'.length → data.take 14 = data'.take 14 →
      ethernet.Parse data = ethernet.Parse data') ∧
    (20 ≤ data.length → 20 ≤ data'.length → data.take 20 = data'.take 20 →
      ip.Parse data = ip.Parse data') ∧
    (20 ≤ data.length → 20 ≤ data'.length → data.take 16 = data'.take 16 →
      tcp.Parse data = tcp.Parse data') := by
  refine ⟨?_, ?_, ?_, ?_, ?_, ?_, ?_, ?_, ?_⟩
  · unfold ethernet.Parse
    by_cases h : data.length < 14
    · simp [h]
    · simp [h]
  · unfold ip.Parse
    by_cases h : data.length < 20
    · simp [h]
    · simp [h]
  · unfold tcp.Parse
    by_cases h : data.length < 20
    · simp [h]
    · simp [h]
  · unfold ethernet.Parse
    by_cases h : data.length < 14
    · simp [h]
    · simp [h]; omega
  · unfold ip.Parse
    by_cases h : data.length < 20
    · simp [h]
    · simp [h]; omega
  · unfold tcp.Parse
    by_cases h : data.length < 20
    · simp [h]
    · simp [h]; omega
  · intro h1 h2 h
    have e := fun i (hi : i < 14) => getElem_eq_of_take_eq h i hi (by omega) (by omega)
    simp only [ethernet.Parse, dif_neg (by omega : ¬ data.length < 14),
      dif_neg (by omega : ¬ data'.length < 14), e 0 (by omega), e 1 (by omega),
      e 2 (by omega), e 3 (by omega), e 4 (by omega), e 5 (by omega), e 6 (by omega),
      e 7 (by omega), e 8 (by omega), e 9 (by omega), e 10 (by omega), e 11 (by omega),
      e 12 (by omega), e 13 (by omega)]
  · intro h1 h2 h
    have e := fun i (hi : i < 20) => getElem_eq_of_take_eq h i hi (by omega) (by omega)
    simp only [ip.Parse, dif_neg (by omega : ¬ data.length < 20),
      dif_neg (by omega : ¬ data'.length < 20), e 0 (by omega), e 1 (by omega),
      e 2 (by omega), e 3 (by omega), e 4 (by omega), e 5 (by omega), e 6 (by omega),
      e 7 (by omega), e 8 (by omega), e 9 (by omega), e 10 (by omega), e 11 (by omega),
      e 12 (by omega), e 13 (by omega), e 14 (by omega), e 15 (by omega), e 16 (by omega),
      e 17 (by omega), e 18 (by omega), e 19 (by omega)]
  · intro h1 h2 h
    have e := fun i (hi : i < 16) => getElem_eq_of_take_eq h i hi (by omega) (by omega)
    simp only [tcp.Parse, dif_neg (by omega : ¬ data.length < 20),
      dif_neg (by omega : ¬ data'.length < 20), e 0 (by omega), e 1 (by omega),
      e 2 (by omega), e 3 (by omega), e 4 (by omega), e 5 (by omega), e 6 (by omega),
      e 7 (by omega), e 8 (by omega), e 9 (by omega), e 10 (by omega), e 11 (by omega),
      e 12 (by omega), e 13 (by omega), e 14 (by omega), e 15 (by omega)]

/-- The two 21-byte inputs agree on their first 16 bytes and `tcp.Parse` returns the same segment
for both, as `parse_error_iff_short` says. -/
theorem parse_error_iff_short_witness :
    tcp.Parse [0x30, 0x39, 0x1F, 0x90, 0, 0, 0, 1, 0, 0, 0, 0, 0x50, 0x02, 0xFF, 0xFF,
        0xAB, 0xCD, 0, 0, 7]
      = tcp.Parse [0x30, 0x39, 0x1F, 0x90, 0, 0, 0, 1, 0, 0, 0, 0, 0x50, 0x02, 0xFF, 0xFF,
        1, 2, 3, 4, 5, 6] :=
  (parse_error_iff_short
    [0x30, 0x39, 0x1F, 0x90, 0, 0, 0, 1, 0, 0, 0, 0, 0x50, 0x02, 0xFF, 0xFF, 0xAB, 0xCD, 0, 0, 7]
    [0x30, 0x39, 0x1F, 0x90, 0, 0, 0, 1, 0, 0, 0, 0, 0x50, 0x02, 0xFF, 0xFF, 1, 2, 3, 4, 5, 6]
    ).2.2.2.2.2.2.2.2 (by decide) (by decide) (by decide)

theorem getElem_lt_of_bytes {data : List Nat} (hb : Bytes data) (i : Nat)
    (h : i < data.length) : data[i] < 256 :=
  hb _ (List.getElem_mem h)

/-- C13. For every input of at least 20 bytes `tcp.Parse` succeeds with `DataOffset` equal to
`byte12 >> 4` and `Flags` equal to `((byte12 & 1) << 8) | byte13`; `Flags` is below 512, its
bit 8 (the quotient by 256) is the low bit of byte 12 and its low 8 bits are byte 13; the
ports, the sequence and acknowledgment numbers and the window are the big-endian values of
bytes 0-1, 2-3, 4-7, 8-11 and 14-15. With byte 12 `0x50` and byte 13 `0x02` the data offset
is 5 and the flags are `0x002`. -/
theorem tcp_parse_fields (data : List Nat) (hlen : 20 ≤ data.length) (hb : Bytes data) :
    ∃ s, tcp.Parse data = .ok s ∧
      s.DataOffset = data[12] >>> 4 ∧
      s.Flags = ((data[12] &&& 1) <<< 8) ||| data[13] ∧
      s.Flags < 512 ∧
      s.Flags / 256 = data[12] % 2 ∧
      s.Flags % 256 = data[13] ∧
      s.SrcPort = data[0] * 256 + data[1] ∧
      s.DestPort = data[2] * 256 + data[3] ∧
      s.SeqNum = data[4] * 2 ^ 24 + data[5] * 2 ^ 16 + data[6] * 2 ^ 8 + data[7] ∧
      s.AckNum = data[8] * 2 ^ 24 + data[9] * 2 ^ 16 + data[10] * 2 ^ 8 + data[11] ∧
      s.WindowSize = data[14] * 256 + data[15] ∧
      (data[12] = 0x50 → data[13] = 0x02 → s.DataOffset = 5 ∧ s.Flags = 0x002) := by
  have hn : ¬ data.length < 20 := Nat.not_lt.mpr hlen
  have hlt := getElem_lt_of_bytes hb
  have h12 : data[12] < 256 := hlt 12 (by omega)
  have h13 : data[13] < 256 := hlt 13 (by omega)
  have hfl : u16 ((data[12] &&& 0x01) <<< 8) ||| data[13] = data[12] % 2 * 256 + data[13] := by
    rw [and_0x01, pack16 _ _ (by omega) h13]
  have hsh : u16 ((data[12] &&& 0x01) <<< 8) = (data[12] &&& 1) <<< 8 := by
    rw [and_0x01]
    simp only [u16, Nat.shiftLeft_eq]
    omega
  unfold tcp.Parse
  rw [dif_neg hn]
  refine ⟨_, rfl, ?_⟩
  dsimp only
  refine ⟨rfl, ?_, ?_, ?_, ?_, ?_, ?_, ?_, ?_, ?_, ?_⟩
  · rw [hsh]
  · rw [hfl]; omega
  · rw [hfl]; omega
  · rw [hfl]; omega
  · exact pack16 _ _ (hlt 0 (by omega)) (hlt 1 (by omega))
  · exact pack16 _ _ (hlt 2 (by omega)) (hlt 3 (by omega))
  · exact pack32 _ _ _ _ (hlt 4 (by omega)) (hlt 5 (by omega)) (hlt 6 (by omega))
      (hlt 7 (by omega))
  · exact pack32 _ _ _ _ (hlt 8 (by omega)) (hlt 9 (by omega)) (hlt 10 (by omega))
      (hlt 11 (by omega))
  · exact pack16 _ _ (hlt 14 (by omega)) (hlt 15 (by omega))
  · intro e12 e13
    refine ⟨?_, ?_⟩
    · rw [e12]
      decide
    · rw [hfl, e12, e13]

/-- A SYN header followed by 4 bytes of payload satisfies the hypotheses of `tcp_parse_fields`:
byte 12 is `0x50`, byte 13 is `0x02`, and the parsed data offset and flags are 5 and 2. -/
theorem tcp_parse_fields_witness :
    ∃ s, tcp.Parse [0x30, 0x39, 0x1F, 0x90, 0, 0, 0, 1, 0, 0, 0, 0, 0x50, 0x02, 0xFF, 0xFF,
        0xAB, 0xCD, 0, 0, 1, 2, 3, 4] = .ok s ∧
      s.DataOffset = 5 ∧ s.Flags = 0x002 ∧ s.SrcPort = 12345 ∧ s.DestPort = 8080 ∧
      s.SeqNum = 1 ∧ s.AckNum = 0 ∧ s.WindowSize = 65535 := by
  obtain ⟨s, hs, -, -, -, -, -, h1, h2, h3, h4, h5, h6⟩ :=
    tcp_parse_fields [0x30, 0x39, 0x1F, 0x90, 0, 0, 0, 1, 0, 0, 0, 0, 0x50, 0x02, 0xFF, 0xFF,
      0xAB, 0xCD, 0, 0, 1, 2, 3, 4] (by decide) (by decide)
  exact ⟨s, hs, (h6 rfl rfl).1, (h6 rfl rfl).2, h1, h2, h3, h4, h5⟩

/-- C14. For every input of at least 20 bytes `ip.Parse` succeeds, whatever the version and IHL
nibbles, with `Version = byte0 >> 4`, `IHL = byte0 & 0x0F`, `Flags = byte6 >> 5` (below 8),
`FragmentOffset = ((byte6 & 0x1F) << 8) | byte7` (below 8192), `TotalLen`, `Identification`
and `HeaderChecksum` the big-endian values of bytes 2-3, 4-5 and 10-11, `TOS`, `TTL` and
`Protocol` the bytes 1, 8 and 9, `SrcIP` the bytes 12-15 and `DestIP` the bytes 16-19. -/
theorem ip_parse_fields (data : List Nat) (hlen : 20 ≤ data.length) (hb : Bytes data) :
    ∃ p, ip.Parse data = .ok p ∧
      p.Version = data[0] >>> 4 ∧
      p.IHL = data[0] &&& 0x0F ∧
      p.Flags = data[6] >>> 5 ∧
      p.Flags < 8 ∧
      p.FragmentOffset = ((data[6] &&& 0x1F) <<< 8) ||| data[7] ∧
      p.FragmentOffset < 8192 ∧
      p.TotalLen = data[2] * 256 + data[3] ∧
      p.Identification = data[4] * 256 + data[5] ∧
      p.HeaderChecksum = data[10] * 256 + data[11] ∧
      p.TOS = data[1] ∧
      p.TTL = data[8] ∧
      p.Protocol = data[9] ∧
      p.SrcIP = ⟨data[12], data[13], data[14], data[15]⟩ ∧
      p.DestIP = ⟨data[16], data[17], data[18], data[19]⟩ := by
  have hn : ¬ data.length < 20 := Nat.not_lt.mpr hlen
  have hlt := getElem_lt_of_bytes hb
  have h6 : data[6] < 256 := hlt 6 (by omega)
  have h7 : data[7] < 256 := hlt 7 (by omega)
  have hfo : u16 ((data[6] &&& 0x1F) <<< 8) ||| data[7] = data[6] % 32 * 256 + data[7] := by
    rw [and_0x1F, pack16 _ _ (by omega) h7]
  have hsh : u16 ((data[6] &&& 0x1F) <<< 8) = (data[6] &&& 0x1F) <<< 8 := by
    rw [and_0x1F]
    simp only [u16, Nat.shiftLeft_eq]
    omega
  unfold ip.Parse
  rw [dif_neg hn]
  refine ⟨_, rfl, ?_⟩
  dsimp only
  refine ⟨rfl, rfl, rfl, ?_, ?_, ?_, ?_, ?_, ?_, rfl, rfl, rfl, rfl, rfl⟩
  · rw [Nat.shiftRight_eq_div_pow]; omega
  · rw [hsh]
  · rw [hfo]; omega
  · exact pack16 _ _ (hlt 2 (by omega)) (hlt 3 (by omega))
  · exact pack16 _ _ (hlt 4 (by omega)) (hlt 5 (by omega))
  · exact pack16 _ _ (hlt 10 (by omega)) (hlt 11 (by omega))

/-- A 24-byte input with version 6 and IHL 15 satisfies the hypotheses of `ip_parse_fields`:
it is parsed, with the fields read from the fixed offsets. -/
theorem ip_parse_fields_witness :
    ∃ p, ip.Parse [0x6F, 0x10, 0x01, 0x02, 0xAB, 0xCD, 0xFF, 0xFF, 0x40, 0x11, 0x12, 0x34,
        192, 168, 1, 2, 10, 0, 0, 255, 9, 9, 9, 9] = .ok p ∧
      p.Version = 6 ∧ p.IHL = 15 ∧ p.Flags = 7 ∧ p.FragmentOffset = 8191 ∧ p.TotalLen = 258 ∧
      p.Protocol = 17 ∧ p.SrcIP = ⟨192, 168, 1, 2⟩ ∧ p.DestIP = ⟨10, 0, 0, 255⟩ := by
  obtain ⟨p, hp, h1, h2, h3, -, h4, -, h5, -, -, -, -, h6, h7, h8⟩ :=
    ip_parse_fields [0x6F, 0x10, 0x01, 0x02, 0xAB, 0xCD, 0xFF, 0xFF, 0x40, 0x11, 0x12, 0x34,
      192, 168, 1, 2, 10, 0, 0, 255, 9, 9, 9, 9] (by decide) (by decide)
  exact ⟨p, hp, h1, h2, h3, h4, h5, h6, h7, h8⟩

/-! ## Checksums -/

/-- C15. For a segment of length `L` below 65536, `TCPChecksum` is `utils.ChecksumData` applied
to the `12 + L` bytes made of the four bytes of the source address, the four bytes of the
destination address, `0`, `6`, `L >> 8`, `L & 0xFF` and the segment bytes as they are. -/
theorem tcpChecksum_input (srcIP destIP : Addr4) (tcpSegment : List Nat)
    (hL : tcpSegment.length < 65536) :
    tcp.TCPChecksum srcIP destIP tcpSegment
      = utils.ChecksumData ([srcIP.b0, srcIP.b1, srcIP.b2, srcIP.b3] ++
          [destIP.b0, destIP.b1, destIP.b2, destIP.b3] ++
          [0, 6, tcpSegment.length >>> 8, tcpSegment.length &&& 0xFF] ++ tcpSegment) ∧
    ([srcIP.b0, srcIP.b1, srcIP.b2, srcIP.b3] ++ [destIP.b0, destIP.b1, destIP.b2, destIP.b3] ++
        [0, 6, tcpSegment.length >>> 8, tcpSegment.length &&& 0xFF] ++ tcpSegment).length
      = 12 + tcpSegment.length := by
  have e1 : u8 (tcpSegment.length >>> 8) = tcpSegment.length >>> 8 := by
    simp only [u8, Nat.shiftRight_eq_div_pow]
    omega
  have e2 : u8 (tcpSegment.length &&& 0xFF) = tcpSegment.length &&& 0xFF := by
    rw [and_0xFF]
    simp only [u8]
    omega
  refine ⟨?_, ?_⟩
  · simp only [tcp.TCPChecksum, Addr4.toList, e1, e2, List.nil_append, List.cons_append,
      List.append_assoc]
  · simp only [List.cons_append, List.nil_append, List.length_cons]
    omega

/-- The 20 bytes that `tcp.Build` makes of a SYN segment satisfy the hypothesis of
`tcpChecksum_input`: the length bytes of the pseudo-header are `0` and `20`. -/
theorem tcpChecksum_input_witness :
    tcp.TCPChecksum ⟨10, 0, 0, 2⟩ ⟨10, 0, 0, 1⟩ (tcp.Build synSegment)
      = utils.ChecksumData ([10, 0, 0, 2] ++ [10, 0, 0, 1] ++ [0, 6, 0, 20] ++
          tcp.Build synSegment) :=
  (tcpChecksum_input ⟨10, 0, 0, 2⟩ ⟨10, 0, 0, 1⟩ (tcp.Build synSegment) (by decide)).1

theorem foldCarry_eq (x : Nat) : utils.foldCarry x = x % 65536 + x / 65536 := by
  unfold utils.foldCarry
  rw [Nat.shiftRight_eq_div_pow]
  exact congrArg (· + x / 2 ^ 16) (Nat.and_pow_two_sub_one_eq_mod x 16)

/-- A 16-bit word read from two bytes in big-endian order. -/
theorem word_eq (b0 b1 : Nat) (h1 : b1 < 256) : b0 <<< 8 ||| b1 = b0 * 256 + b1 := by
  rw [Nat.shiftLeft_eq]
  exact or_eq_add_of_mod 8 _ _ (by omega) (by omega)

theorem bytes_cons {b : Nat} {data : List Nat} (h : Bytes (b :: data)) :
    b < 256 ∧ Bytes data :=
  ⟨h b (by simp), fun x hx => h x (by simp [hx])⟩

/-- The running sum of the checksum engine stays a 16-bit value. -/
theorem sumWords_le : ∀ (data : List Nat) (sum : Nat), Bytes data → sum ≤ 65535 →
    utils.sumWords data sum ≤ 65535
  | [], sum, _, hs => by
    unfold utils.sumWords
    exact hs
  | [b], sum, hb, hs => by
    have h0 := (bytes_cons hb).1
    unfold utils.sumWords
    rw [word_eq b 0 (by omega), foldCarry_eq]
    omega
  | b0 :: b1 :: rest, sum, hb, hs => by
    have h0 := (bytes_cons hb).1
    have h1 := (bytes_cons (bytes_cons hb).2).1
    have hrest := (bytes_cons (bytes_cons hb).2).2
    unfold utils.sumWords
    apply sumWords_le rest _ hrest
    rw [word_eq b0 b1 h1, foldCarry_eq]
    omega

/-- Summing a buffer of even length and then a second buffer is summing their concatenation. -/
theorem sumWords_append : ∀ (data tail : List Nat) (sum : Nat), data.length % 2 = 0 →
    utils.sumWords (data ++ tail) sum = utils.sumWords tail (utils.sumWords data sum)
  | [], tail, sum, _ => by
    simp only [List.nil_append, utils.sumWords]
  | [b], tail, sum, h => by
    simp at h
  | b0 :: b1 :: rest, tail, sum, h => by
    have hrest : rest.length % 2 = 0 := by
      simp only [List.length_cons] at h
      omega
    simp only [List.cons_append, utils.sumWords]
    exact sumWords_append rest tail _ hrest

/-- C16. For every byte buffer `b` of even length, with `c` the checksum of `b`, the checksum of
`b` followed by the bytes `c >> 8` and `c & 0xFF` is 0. -/
theorem checksum_self_verifying (b : List Nat) (hb : Bytes b) (heven : b.length % 2 = 0) :
    utils.ChecksumData
      (b ++ [u8 (utils.ChecksumData b >>> 8), u8 (utils.ChecksumData b &&& 0xFF)]) = 0 := by
  have hS := sumWords_le b 0 hb (by omega)
  have hc : utils.ChecksumData b = 65535 - utils.sumWords b 0 := by
    unfold utils.ChecksumData
    rw [foldCarry_eq]
    simp only [u16]
    omega
  have hhi : u8 (utils.ChecksumData b >>> 8) = (65535 - utils.sumWords b 0) / 256 := by
    rw [hc]
    simp only [u8, Nat.shiftRight_eq_div_pow]
    omega
  have hlo : u8 (utils.ChecksumData b &&& 0xFF) = (65535 - utils.sumWords b 0) % 256 := by
    rw [hc, and_0xFF]
    simp only [u8]
    omega
  rw [hhi, hlo]
  unfold utils.ChecksumData
  rw [sumWords_append b _ 0 heven]
  simp only [utils.sumWords]
  rw [word_eq _ _ (by omega), foldCarry_eq, foldCarry_eq]
  simp only [u16]
  omega

/-- The IPv4 header bytes `45 00 00 28 00 01 40 00 40 06 00 00 0A 00 00 02 0A 00 00 01` satisfy
the hypotheses of `checksum_self_verifying`; their checksum is `0x26CD`. -/
theorem checksum_self_verifying_witness :
    utils.ChecksumData [0x45, 0x00, 0x00, 0x28, 0x00, 0x01, 0x40, 0x00, 0x40, 0x06, 0x00, 0x00,
        10, 0, 0, 2, 10, 0, 0, 1] = 0x26CD ∧
      utils.ChecksumData ([0x45, 0x00, 0x00, 0x28, 0x00, 0x01, 0x40, 0x00, 0x40, 0x06, 0x00,
        0x00, 10, 0, 0, 2, 10, 0, 0, 1] ++
        [u8 (utils.ChecksumData [0x45, 0x00, 0x00, 0x28, 0x00, 0x01, 0x40, 0x00, 0x40, 0x06,
            0x00, 0x00, 10, 0, 0, 2, 10, 0, 0, 1] >>> 8),
          u8 (utils.ChecksumData [0x45, 0x00, 0x00, 0x28, 0x00, 0x01, 0x40, 0x00, 0x40, 0x06,
            0x00, 0x00, 10, 0, 0, 2, 10, 0, 0, 1] &&& 0xFF)]) = 0 :=
  ⟨by decide, checksum_self_verifying [0x45, 0x00, 0x00, 0x28, 0x00, 0x01, 0x40, 0x00, 0x40,
    0x06, 0x00, 0x00, 10, 0, 0, 2, 10, 0, 0, 1] (by decide) (by decide)⟩

/-! ## Building, then parsing -/

/-- The two bytes that `Build` makes of a 16-bit field are read back as the field. -/
theorem repack16 (x : Nat) (hx : x < 2 ^ 16) :
    u16 (u8 (x >>> 8) <<< 8) ||| u8 (x &&& 0xFF) = x := by
  have h1 : u8 (x >>> 8) = x / 256 := by
    simp only [u8, Nat.shiftRight_eq_div_pow]; omega
  have h2 : u8 (x &&& 0xFF) = x % 256 := by
    rw [and_0xFF]; simp only [u8]; omega
  rw [h1, h2, pack16 _ _ (by omega) (by omega)]
  omega

/-- The four bytes that `Build` makes of a 32-bit field are read back as the field. -/
theorem repack32 (x : Nat) (hx : x < 2 ^ 32) :
    u32 (u8 (x >>> 24) <<< 24) ||| u32 (u8 ((x >>> 16) &&& 0xFF) <<< 16)
        ||| u32 (u8 ((x >>> 8) &&& 0xFF) <<< 8) ||| u8 (x &&& 0xFF) = x := by
  have h1 : u8 (x >>> 24) = x / 16777216 := by
    simp only [u8, Nat.shiftRight_eq_div_pow]; omega
  have h2 : u8 ((x >>> 16) &&& 0xFF) = x / 65536 % 256 := by
    rw [and_0xFF]; simp only [u8, Nat.shiftRight_eq_div_pow]; omega
  have h3 : u8 ((x >>> 8) &&& 0xFF) = x / 256 % 256 := by
    rw [and_0xFF]; simp only [u8, Nat.shiftRight_eq_div_pow]; omega
  have h4 : u8 (x &&& 0xFF) = x % 256 := by
    rw [and_0xFF]; simp only [u8]; omega
  rw [h1, h2, h3, h4, pack32 _ _ _ _ (by omega) (by omega) (by omega) (by omega)]
  omega

/-- Byte 12 as `Build` packs it, in arithmetic form. -/
theorem build_byte12 (off flags : Nat) :
    u8 ((off &&& 0x0F) <<< 4) ||| u8 ((flags >>> 8) &&& 0x01)
      = off % 16 * 16 + flags / 256 % 2 := by
  rw [and_0x0F, and_0x01]
  simp only [u8, Nat.shiftRight_eq_div_pow, Nat.shiftLeft_eq]
  rw [or_eq_add_of_mod 4 _ _ (by omega) (by omega)]
  omega

theorem reparse_dataOffset (off flags : Nat) :
    (u8 ((off &&& 0x0F) <<< 4) ||| u8 ((flags >>> 8) &&& 0x01)) >>> 4 = off % 16 := by
  rw [build_byte12, Nat.shiftRight_eq_div_pow]
  omega

theorem reparse_flags (off flags : Nat) :
    u16 (((u8 ((off &&& 0x0F) <<< 4) ||| u8 ((flags >>> 8) &&& 0x01)) &&& 0x01) <<< 8)
        ||| u8 (flags &&& 0xFF) = flags % 512 := by
  have h2 : u8 (flags &&& 0xFF) = flags % 256 := by
    rw [and_0xFF]; simp only [u8]; omega
  rw [build_byte12, and_0x01, h2, pack16 _ _ (by omega) (by omega)]
  omega

/-- C17. For every `TCPSegment` whose fields are in the ranges of their Go types, `tcp.Build`
returns exactly 20 bytes of which bytes 16-19 are zero, and `tcp.Parse` of these bytes
succeeds and returns the segment with `DataOffset` reduced modulo 16 and `Flags` reduced
modulo 512; hence parsing gives the segment back exactly when `DataOffset` is at most 15 and
`Flags` at most `0x1FF`. -/
theorem tcp_parse_build (s : tcp.TCPSegment) (hwf : s.WF) :
    (tcp.Build s).length = 20 ∧
    (tcp.Build s).drop 16 = [0, 0, 0, 0] ∧
    tcp.Parse (tcp.Build s)
      = .ok { s with DataOffset := s.DataOffset % 16, Flags := s.Flags % 512 } ∧
    (tcp.Parse (tcp.Build s) = .ok s ↔ s.DataOffset ≤ 15 ∧ s.Flags ≤ 0x1FF) := by
  obtain ⟨h1, h2, h3, h4, -, -, h7⟩ := hwf
  have hparse : tcp.Parse (tcp.Build s)
      = .ok { s with DataOffset := s.DataOffset % 16, Flags := s.Flags % 512 } := by
    simp only [tcp.Parse, tcp.Build, List.length_cons, List.length_nil, Nat.reduceAdd,
      Nat.lt_irrefl, dite_false, List.getElem_cons_succ, List.getElem_cons_zero,
      repack16 _ h1, repack16 _ h2, repack32 _ h3, repack32 _ h4, repack16 _ h7,
      reparse_dataOffset, reparse_flags]
  refine ⟨rfl, rfl, hparse, ?_⟩
  rw [hparse]
  constructor
  · intro h
    have h' := congrArg (fun r => match r with
      | Except.ok (t : tcp.TCPSegment) => (t.DataOffset, t.Flags)
      | Except.error _ => (0, 0)) h
    simp only [Prod.mk.injEq] at h'
    omega
  · rintro ⟨hd, hf⟩
    have e1 : s.DataOffset % 16 = s.DataOffset := Nat.mod_eq_of_lt (by omega)
    have e2 : s.Flags % 512 = s.Flags := Nat.mod_eq_of_lt (by omega)
    rw [e1, e2]

/-- A segment with data offset `0x25` and flags `0xFE12` satisfies the hypothesis of
`tcp_parse_build`: it comes back with data offset 5 and flags `0x012`. -/
theorem tcp_parse_build_witness :
    tcp.Parse (tcp.Build { synSegment with DataOffset := 0x25, Flags := 0xFE12 })
      = .ok { synSegment with DataOffset := 5, Flags := 0x012 } :=
  (tcp_parse_build { synSegment with DataOffset := 0x25, Flags := 0xFE12 } (by decide)).2.2.1

/-! ## The state machine as a whole -/

/-- The three states of the server-side handshake. -/
theorem handshake_state_cases (st : tcp.State)
    (h : st = tcp.State.STATE_LISTEN ∨ st = tcp.State.STATE_SYN_RECEIVED ∨
      st = tcp.State.STATE_ESTABLISHED) : st.toNat ≤ 2 := by
  rcases h with h | h | h <;> subst h <;> decide

/-- What one handler call that returns does to a connection: the state stays among the three
handshake states if it was, it does not decrease, and the local endpoint is kept. -/
theorem call_step (c : tcp.Connection) (rs : RandSource) (call : tcp.Call) (r : tcp.SynResult)
    (h : c.call rs call = .ok r) :
    ((c.State = tcp.State.STATE_LISTEN ∨ c.State = tcp.State.STATE_SYN_RECEIVED ∨
        c.State = tcp.State.STATE_ESTABLISHED) →
      (r.conn.State = tcp.State.STATE_LISTEN ∨ r.conn.State = tcp.State.STATE_SYN_RECEIVED ∨
        r.conn.State = tcp.State.STATE_ESTABLISHED)) ∧
    c.State.toNat ≤ r.conn.State.toNat ∧
    r.conn.LocalIP = c.LocalIP ∧
    r.conn.LocalPort = c.LocalPort := by
  cases call with
  | syn segment remoteIP remotePort =>
    simp only [tcp.Connection.call, tcp.Connection.HandleSyn] at h
    by_cases hs : c.State = tcp.State.STATE_LISTEN
    · cases hr : tcp.randomInitialSeqNum rs with
      | mk res rs1 =>
        cases res with
        | error e => simp [hs, hr] at h
        | ok N =>
          simp only [hs, hr, ne_eq, not_true_eq_false, if_false, Except.ok.injEq] at h
          subst h
          refine ⟨fun _ => Or.inr (Or.inl rfl), ?_, rfl, rfl⟩
          rw [hs]
          exact Nat.zero_le _
    · simp only [ne_eq, hs, not_false_eq_true, if_true, Except.ok.injEq] at h
      subst h
      exact ⟨id, Nat.le_refl _, rfl, rfl⟩
  | ack segment =>
    simp only [tcp.Connection.call, Except.ok.injEq] at h
    subst h
    unfold tcp.Connection.HandleAck
    by_cases hs : c.State = tcp.State.STATE_SYN_RECEIVED
    · by_cases ha : segment.AckNum = u32 (c.SendSeq + 1)
      · rw [if_neg (not_not.mpr hs), if_neg (not_not.mpr ha)]
        refine ⟨fun _ => Or.inr (Or.inr rfl), ?_, rfl, rfl⟩
        rw [hs]
        exact Nat.le_succ 1
      · rw [if_neg (not_not.mpr hs), if_pos ha]
        exact ⟨id, Nat.le_refl _, rfl, rfl⟩
    · rw [if_pos hs]
      exact ⟨id, Nat.le_refl _, rfl, rfl⟩

/-- A run of handler calls that returns keeps the state among the three handshake states and
keeps the local endpoint. -/
theorem run_preserves : ∀ (calls : List tcp.Call) (c0 : tcp.Connection) (rs0 : RandSource)
    (c : tcp.Connection) (rs : RandSource),
    (c0.State = tcp.State.STATE_LISTEN ∨ c0.State = tcp.State.STATE_SYN_RECEIVED ∨
      c0.State = tcp.State.STATE_ESTABLISHED) →
    c0.run rs0 calls = .ok (c, rs) →
    (c.State = tcp.State.STATE_LISTEN ∨ c.State = tcp.State.STATE_SYN_RECEIVED ∨
      c.State = tcp.State.STATE_ESTABLISHED) ∧
    c0.State.toNat ≤ c.State.toNat ∧ c.LocalIP = c0.LocalIP ∧ c.LocalPort = c0.LocalPort
  | [], c0, rs0, c, rs, h0, hrun => by
    simp only [tcp.Connection.run, Except.ok.injEq, Prod.mk.injEq] at hrun
    obtain ⟨rfl, rfl⟩ := hrun
    exact ⟨h0, Nat.le_refl _, rfl, rfl⟩
  | call :: calls, c0, rs0, c, rs, h0, hrun => by
    simp only [tcp.Connection.run] at hrun
    cases hc : c0.call rs0 call with
    | error f => simp [hc] at hrun
    | ok r =>
      simp only [hc] at hrun
      obtain ⟨s1, m1, i1, p1⟩ := call_step c0 rs0 call r hc
      obtain ⟨s2, m2, i2, p2⟩ := run_preserves calls r.conn r.rand c rs (s1 h0) hrun
      exact ⟨s2, Nat.le_trans m1 m2, i2.trans i1, p2.trans p1⟩

/-- A handler call on an established connection returns, returns no segment, and changes neither
the connection nor the randomness source. -/
theorem call_established (c : tcp.Connection) (rs : RandSource) (call : tcp.Call)
    (h : c.State = tcp.State.STATE_ESTABLISHED) :
    c.call rs call = .ok { response := none, conn := c, rand := rs } := by
  cases call with
  | syn segment remoteIP remotePort =>
    simp [tcp.Connection.call, tcp.Connection.HandleSyn, h]
  | ack segment =>
    simp [tcp.Connection.call, tcp.Connection.HandleAck, h]

/-- C18. After any finite sequence of `HandleSyn` and `HandleAck` calls that starts from a
connection in LISTEN, the state is LISTEN, SYN_RECEIVED or ESTABLISHED, `LocalIP` and
`LocalPort` are those of the start, a further call never moves the state backwards in the
order LISTEN, SYN_RECEIVED, ESTABLISHED, and once the state is ESTABLISHED a further call
returns no segment and changes no field. -/
theorem handshake_invariant (c0 : tcp.Connection) (rs0 : RandSource) (calls : List tcp.Call)
    (c : tcp.Connection) (rs : RandSource)
    (hstart : c0.State = tcp.State.STATE_LISTEN)
    (hrun : c0.run rs0 calls = .ok (c, rs)) :
    (c.State = tcp.State.STATE_LISTEN ∨ c.State = tcp.State.STATE_SYN_RECEIVED ∨
      c.State = tcp.State.STATE_ESTABLISHED) ∧
    c.LocalIP = c0.LocalIP ∧
    c.LocalPort = c0.LocalPort ∧
    (∀ call r, c.call rs call = .ok r →
      c.State.toNat ≤ r.conn.State.toNat ∧ r.conn.State.toNat ≤ 2) ∧
    (c.State = tcp.State.STATE_ESTABLISHED →
      ∀ call, c.call rs call = .ok { response := none, conn := c, rand := rs }) := by
  obtain ⟨hs, -, hip, hport⟩ := run_preserves calls c0 rs0 c rs (Or.inl hstart) hrun
  refine ⟨hs, hip, hport, ?_, ?_⟩
  · intro call r hr
    obtain ⟨s1, m1, -, -⟩ := call_step c rs call r hr
    exact ⟨m1, handshake_state_cases _ (s1 hs)⟩
  · intro he call
    exact call_established c rs call he

/-- The connection of `main`, a SYN, the matching ACK and a further SYN from another peer
satisfy the hypotheses of `handshake_invariant`: the run ends in ESTABLISHED with the
peer of the first SYN, and further calls change nothing. -/
theorem handshake_invariant_witness :
    (establishedConn.State = tcp.State.STATE_LISTEN ∨
      establishedConn.State = tcp.State.STATE_SYN_RECEIVED ∨
      establishedConn.State = tcp.State.STATE_ESTABLISHED) ∧
    establishedConn.LocalIP = (⟨10, 0, 0, 1⟩ : Addr4) ∧
    establishedConn.LocalPort = 8080 ∧
    (∀ call r, establishedConn.call { pending := [], reads := 1 } call = .ok r →
      establishedConn.State.toNat ≤ r.conn.State.toNat ∧ r.conn.State.toNat ≤ 2) ∧
    (establishedConn.State = tcp.State.STATE_ESTABLISHED →
      ∀ call, establishedConn.call { pending := [], reads := 1 } call
        = .ok { response := none, conn := establishedConn,
                rand := { pending := [], reads := 1 } }) :=
  handshake_invariant { listenConn with LocalIP := ⟨10, 0, 0, 1⟩ }
    { pending := [some ⟨0, 0, 0, 7⟩], reads := 0 }
    [ tcp.Call.syn synSegment ⟨10, 0, 0, 2⟩ 12345,
      tcp.Call.ack { synSegment with Flags := 0x10, SeqNum := 1001, AckNum := 8 },
      tcp.Call.syn synSegment ⟨10, 0, 0, 99⟩ 4444 ]
    establishedConn { pending := [], reads := 1 } rfl (by decide)

/-- C20. In state LISTEN, when the randomness source delivers a value, the segment that
`HandleSyn` returns has the local port of the connection as source port, the argument
`remotePort` as destination port and window size 0, the connection holds the arguments
`remoteIP` and `remotePort`, and `tcp.Build` of the segment has bytes 12-13 equal to `50 12`
and bytes 14-15 equal to zero. -/
theorem handleSyn_response (c : tcp.Connection) (segment : tcp.TCPSegment) (remoteIP : Addr4)
    (remotePort : Nat) (rs rs1 : RandSource) (N : Nat)
    (hstate : c.State = tcp.State.STATE_LISTEN)
    (hrand : tcp.randomInitialSeqNum rs = (.ok N, rs1)) :
    ∃ r resp, c.HandleSyn segment remoteIP remotePort rs = .ok r ∧
      r.response = some resp ∧
      resp.SrcPort = c.LocalPort ∧
      resp.DestPort = remotePort ∧
      resp.WindowSize = 0 ∧
      r.conn.RemoteIP = remoteIP ∧
      r.conn.RemotePort = remotePort ∧
      ((tcp.Build resp).drop 12).take 4 = [0x50, 0x12, 0, 0] := by
  simp only [tcp.Connection.HandleSyn, hstate, hrand, ne_eq, not_true_eq_false, if_false]
  refine ⟨_, _, rfl, rfl, rfl, rfl, rfl, rfl, rfl, ?_⟩
  simp only [tcp.Build, List.drop, List.take]
  decide

/-- The connection of `main` and a SYN from 10.0.0.2:12345 satisfy the hypotheses of
`handleSyn_response`. -/
theorem handleSyn_response_witness :
    ∃ r resp, listenConn.HandleSyn synSegment ⟨10, 0, 0, 2⟩ 12345
        { pending := [some ⟨0, 0, 0, 7⟩], reads := 0 } = .ok r ∧
      r.response = some resp ∧
      resp.SrcPort = 8080 ∧
      resp.DestPort = 12345 ∧
      resp.WindowSize = 0 ∧
      r.conn.RemoteIP = ⟨10, 0, 0, 2⟩ ∧
      r.conn.RemotePort = 12345 ∧
      ((tcp.Build resp).drop 12).take 4 = [0x50, 0x12, 0, 0] :=
  handleSyn_response listenConn synSegment ⟨10, 0, 0, 2⟩ 12345
    { pending := [some ⟨0, 0, 0, 7⟩], reads := 0 } { pending := [], reads := 1 } 7 rfl rfl

/-! ## Symmetry of the pseudo-header checksum -/

/-- One end-around carry after adding two 16-bit values: the result is a 16-bit value, it is
the sum or the sum less `0xFFFF`, and it is zero only when both values are. -/
theorem foldCarry_add (s w : Nat) (hs : s ≤ 65535) (hw : w ≤ 65535) :
    utils.foldCarry (s + w) ≤ 65535 ∧
      (utils.foldCarry (s + w) = s + w ∨ utils.foldCarry (s + w) + 65535 = s + w) ∧
      (utils.foldCarry (s + w) = 0 → s + w = 0) := by
  rw [foldCarry_eq]
  omega

theorem foldCarry_of_le (x : Nat) (hx : x ≤ 65535) : utils.foldCarry x = x := by
  rw [foldCarry_eq]
  omega

/-- One's complement addition of 16-bit values is associative. -/
theorem foldCarry_add_assoc (a b c : Nat) (ha : a ≤ 65535) (hb : b ≤ 65535) (hc : c ≤ 65535) :
    utils.foldCarry (utils.foldCarry (a + b) + c)
      = utils.foldCarry (a + utils.foldCarry (b + c)) := by
  obtain ⟨p1, p2, p3⟩ := foldCarry_add a b ha hb
  obtain ⟨q1, q2, q3⟩ := foldCarry_add b c hb hc
  obtain ⟨r1, r2, r3⟩ := foldCarry_add _ c p1 hc
  obtain ⟨s1, s2, s3⟩ := foldCarry_add a _ ha q1
  generalize utils.foldCarry (utils.foldCarry (a + b) + c) = L at *
  generalize utils.foldCarry (a + utils.foldCarry (b + c)) = R at *
  generalize utils.foldCarry (a + b) = P at *
  generalize utils.foldCarry (b + c) = Q at *
  omega

/-- The one's complement sum of four 16-bit words does not depend on which pair comes first. -/
theorem sum4_swap (w1 w2 w3 w4 : Nat) (h1 : w1 ≤ 65535) (h2 : w2 ≤ 65535) (h3 : w3 ≤ 65535)
    (h4 : w4 ≤ 65535) :
    utils.foldCarry (utils.foldCarry (utils.foldCarry (utils.foldCarry (0 + w1) + w2) + w3) + w4)
      = utils.foldCarry
          (utils.foldCarry (utils.foldCarry (utils.foldCarry (0 + w3) + w4) + w1) + w2) := by
  have p1 := (foldCarry_add w1 w2 h1 h2).1
  have q1 := (foldCarry_add w3 w4 h3 h4).1
  rw [Nat.zero_add, Nat.zero_add, foldCarry_of_le w1 h1, foldCarry_of_le w3 h3,
    foldCarry_add_assoc _ w3 w4 p1 h3 h4, foldCarry_add_assoc _ w1 w2 q1 h1 h2,
    Nat.add_comm (utils.foldCarry (w1 + w2))]

theorem word_le (b0 b1 : Nat) (h0 : b0 < 256) (h1 : b1 < 256) : b0 <<< 8 ||| b1 ≤ 65535 := by
  rw [word_eq b0 b1 h1]
  omega

theorem addr4_bytes (a : Addr4) (h : Bytes a.toList) :
    a.b0 < 256 ∧ a.b1 < 256 ∧ a.b2 < 256 ∧ a.b3 < 256 :=
  ⟨h _ (by simp [Addr4.toList]), h _ (by simp [Addr4.toList]), h _ (by simp [Addr4.toList]),
    h _ (by simp [Addr4.toList])⟩

/-- Exchanging the two addresses does not change the pseudo-header checksum. -/
theorem tcpChecksum_swap (a b : Addr4) (seg : List Nat) (ha : Bytes a.toList)
    (hb : Bytes b.toList) : tcp.TCPChecksum a b seg = tcp.TCPChecksum b a seg := by
  obtain ⟨a0, a1, a2, a3⟩ := addr4_bytes a ha
  obtain ⟨b0, b1, b2, b3⟩ := addr4_bytes b hb
  simp only [tcp.TCPChecksum, utils.ChecksumData, Addr4.toList, List.nil_append,
    List.cons_append, utils.sumWords]
  rw [sum4_swap _ _ _ _ (word_le _ _ a0 a1) (word_le _ _ a2 a3) (word_le _ _ b0 b1)
    (word_le _ _ b2 b3)]

theorem bytes_drop {data : List Nat} (h : Bytes data) (k : Nat) : Bytes (data.drop k) :=
  fun x hx => h x (List.mem_of_mem_drop hx)

theorem ip_parse_addr_bytes (data : List Nat) (p : ip.IPPacket) (hb : Bytes data)
    (h : ip.Parse data = .ok p) : Bytes p.SrcIP.toList ∧ Bytes p.DestIP.toList := by
  have hlt := getElem_lt_of_bytes hb
  unfold ip.Parse at h
  split at h
  · cases h
  · have hp := (Except.ok.inj h).symm
    subst hp
    constructor
    · intro x hx
      simp only [Addr4.toList, List.mem_cons, List.mem_singleton, List.mem_nil_iff,
        or_false] at hx
      rcases hx with hx | hx | hx | hx <;> subst hx <;> exact hlt _ _
    · intro x hx
      simp only [Addr4.toList, List.mem_cons, List.mem_singleton, List.mem_nil_iff,
        or_false] at hx
      rcases hx with hx | hx | hx | hx <;> subst hx <;> exact hlt _ _

theorem handleSyn_some (c : tcp.Connection) (segment : tcp.TCPSegment) (remoteIP : Addr4)
    (remotePort : Nat) (rs : RandSource) (r : tcp.SynResult) (resp : tcp.TCPSegment)
    (h : c.HandleSyn segment remoteIP remotePort rs = .ok r) (hr : r.response = some resp) :
    r.conn.RemoteIP = remoteIP ∧ r.conn.LocalIP = c.LocalIP := by
  simp only [tcp.Connection.HandleSyn] at h
  by_cases hs : c.State = tcp.State.STATE_LISTEN
  · cases hrand : tcp.randomInitialSeqNum rs with
    | mk res rs1 =>
      cases res with
      | error e => simp [hs, hrand] at h
      | ok N =>
        simp only [hs, hrand, ne_eq, not_true_eq_false, if_false, Except.ok.injEq] at h
        subst h
        exact ⟨rfl, rfl⟩
  · simp only [ne_eq, hs, not_false_eq_true, if_true, Except.ok.injEq] at h
    subst h
    cases hr

theorem handlePacket_send (conn : tcp.Connection) (data : List Nat) (rs : RandSource)
    (r : PacketResult) (call : SendCall) (h : handlePacket conn data rs = .ok r)
    (hs : r.send = some call) :
    ∃ k, ip.Parse (data.drop k) = .ok call.ipPacket ∧
      r.conn.LocalIP = call.ipPacket.DestIP ∧ r.conn.RemoteIP = call.ipPacket.SrcIP := by
  unfold handlePacket at h
  split at h
  · cases h; cases hs
  · split at h
    · cases h
    · split at h
      · cases h; cases hs
      · dsimp only at h
        split at h
        · cases h
        · split at h
          · cases h; cases hs
          · split at h
            · cases h; cases hs
            · split at h
              · split at h
                · cases h
                · split at h
                  · rename_i _ ethFrame hEth _ ipData hSlice _ ipPacket hIp _ tcpData hSlice2 _
                      seg hTcp hport hsyn _ r1 hSyn _ resp hResp
                    have hr := (Except.ok.inj h).symm
                    subst hr
                    have hcall := (Option.some.inj hs).symm
                    subst hcall
                    obtain ⟨e1, e2⟩ := handleSyn_some _ _ _ _ _ _ _ hSyn hResp
                    have hdrop : ipData = data.drop 14 := by
                      unfold sliceFrom at hSlice
                      split at hSlice
                      · cases hSlice
                      · exact (Except.ok.inj hSlice).symm
                    subst hdrop
                    exact ⟨14, hIp, e2, e1⟩
                  · cases h; cases hs
              · split at h
                · cases h; cases hs
                · cases h; cases hs

/-- C19. With `utils.ChecksumData` the internet checksum, `TCPChecksum` gives the same value
when its two addresses are exchanged. Hence, whenever `handlePacket` calls `sendPacket`, the
connection holds the destination address of the inbound packet as `LocalIP` and its source
address as `RemoteIP`, and the TCP header that `sendPacket` appends to the outbound packet is
`tcp.Build` of the response with bytes 16-17 set to the checksum computed with the source
(`LocalIP`) and destination (`RemoteIP`) of the outbound packet. -/
theorem tcpChecksum_symmetric (a b : Addr4) (seg : List Nat) (ha : Bytes a.toList)
    (hb : Bytes b.toList) :
    tcp.TCPChecksum a b seg = tcp.TCPChecksum b a seg ∧
    ∀ (IPChecksum : List Nat → Nat) (isLoopback : Bool) (conn : tcp.Connection)
      (data : List Nat) (rs : RandSource) (r : PacketResult) (call : SendCall),
      Bytes data → handlePacket conn data rs = .ok r → r.send = some call →
        r.conn.LocalIP = call.ipPacket.DestIP ∧
        r.conn.RemoteIP = call.ipPacket.SrcIP ∧
        ∃ pre, sendPacket IPChecksum isLoopback r.conn call.ethFrame call.ipPacket
            call.tcpSegment
          = pre ++ ((tcp.Build call.tcpSegment).set 16
              (u8 (tcp.TCPChecksum r.conn.LocalIP r.conn.RemoteIP
                (tcp.Build call.tcpSegment) >>> 8))).set 17
              (u8 (tcp.TCPChecksum r.conn.LocalIP r.conn.RemoteIP
                (tcp.Build call.tcpSegment) &&& 0xFF)) := by
  refine ⟨tcpChecksum_swap a b seg ha hb, ?_⟩
  intro IPChecksum isLoopback conn data rs r call hdata hrun hsend
  obtain ⟨k, hparse, hlocal, hremote⟩ := handlePacket_send conn data rs r call hrun hsend
  obtain ⟨hsrc, hdst⟩ := ip_parse_addr_bytes _ _ (bytes_drop hdata k) hparse
  refine ⟨hlocal, hremote, ?_⟩
  rw [hlocal, hremote, tcpChecksum_swap call.ipPacket.DestIP call.ipPacket.SrcIP _ hdst hsrc]
  exact ⟨_, rfl⟩

/-- The addresses 10.0.0.2 and 10.0.0.1 and the bytes of a built SYN segment satisfy the
hypotheses of `tcpChecksum_symmetric`. -/
theorem tcpChecksum_symmetric_witness :
    tcp.TCPChecksum ⟨10, 0, 0, 2⟩ ⟨10, 0, 0, 1⟩ (tcp.Build synSegment)
      = tcp.TCPChecksum ⟨10, 0, 0, 1⟩ ⟨10, 0, 0, 2⟩ (tcp.Build synSegment) :=
  (tcpChecksum_symmetric ⟨10, 0, 0, 2⟩ ⟨10, 0, 0, 1⟩ (tcp.Build synSegment) (by decide)
    (by decide)).1

end Tikpi
